import Mathlib

/-!
Verification development for the cirspecte-site viewers.

This file gives a shallow embedding of the graph/projection consistency layer of the
repository: the timeline viewer (`item`, `rangeItem`, `timelineViewer.refreshItems`,
`toggleSelection`, `createItem`, the external selection subscription), the batch tour
loader (`algorithms.loadGraph`) and the map viewer (`line`, `mapViewer.createLine`,
`deleteLine`, the point add/remove listeners, `updateParent` with `deriveParent`).

JavaScript `Map` objects are embedded as insertion-ordered association lists with
unique keys (`assocFind`, `assocSet`, `assocErase`).  Time values (moment/Date objects
in the source) are embedded as `Int` milliseconds; note that in JavaScript a Date or
moment object is always truthy, so the source's truthiness test `if (latestStart)` in
the aggregation loop distinguishes `null` from a date and is embedded as a match on
`Option`.  The model classes `vertex`, `edge`, `spatialGroup`, `temporalGroup` of the
repository are not among the given sources; their record shapes (`vertexM`, `edgeM`,
`spatialGroupM`, `temporalGroupM`) are modelled from the spec (section 3, DATA MODEL),
as noted at each definition.
-/

namespace cirspecte

/-- JS `Map.get`: first binding of the key in an insertion-ordered association list. -/
def assocFind {α β : Type} [DecidableEq α] (k : α) : List (α × β) → Option β
  | [] => none
  | (k', v) :: rest => if k' = k then some v else assocFind k rest

/-- JS `Map.set`: update the binding in place if present, else append (keys stay unique). -/
def assocSet {α β : Type} [DecidableEq α] (k : α) (v : β) : List (α × β) → List (α × β)
  | [] => [(k, v)]
  | (k', v') :: rest => if k' = k then (k, v) :: rest else (k', v') :: assocSet k v rest

/-- JS `Map.delete`: keys are unique by construction, so removing every binding of the
key is exact. -/
def assocErase {α β : Type} [DecidableEq α] (k : α) : List (α × β) → List (α × β)
  | [] => []
  | p :: rest => if p.1 = k then assocErase k rest else p :: assocErase k rest

/-- Time values carried by timeline items (moment/Date objects in the source),
embedded as milliseconds. -/
abbrev Time := Int

/-- Modelled from the spec: a `spatialGroup` model object as the timeline viewer reads it:
its id, name/description, timeslot, its owning temporal group (`superGroup`, null for a
top-level group) and its multiselect configuration (`isMultiselect()`). -/
structure spatialGroupM where
  id : String
  name : String
  description : String
  timeslot : Time
  superGroup : Option String
  multiselect : Bool
  deriving DecidableEq, Repr, Inhabited

/-- Modelled from the spec: a `temporalGroup` model object as the viewers read it:
`forEach` iterates its list of nested child groups (child ids). -/
structure temporalGroupM where
  id : String
  children : List String
  deriving DecidableEq, Repr, Inhabited

/-- The model side consulted by the timeline viewer, plus the external settings
selection list read by `createItem`. -/
structure Model where
  sgs : List (String × spatialGroupM)
  tgs : List (String × temporalGroupM)
  settingsSelections : List String
  deriving DecidableEq, Repr, Inhabited

/-- `class item`: visual representation of a spatialGroup on the timeline.
`spatialGroup` holds the id of the wrapped group (a direct object reference in JS). -/
structure item where
  group : String
  id : String
  title : String
  content : String
  start : Time
  spatialGroup : String
  deriving DecidableEq, Repr, Inhabited

/-- The `item` constructor: `group` is `g.superGroup.id` (the source dereferences the
super group, so a null super group would throw; `getD ""` is never reached in the
states considered here). -/
def item.ofGroup (g : spatialGroupM) : item :=
  { group := g.superGroup.getD ""
    id := g.id
    title := g.description
    content := g.name
    start := g.timeslot
    spatialGroup := g.id }

/-- `class rangeItem`: visual representation of a collection of spatialGroups.
`stop` embeds the source field `end` (a Lean keyword). -/
structure rangeItem where
  items : List item
  group : String
  id : String
  title : String
  content : String
  start : Time
  stop : Time
  deriving DecidableEq, Repr

/-- The `rangeItem` constructor: identity and span derived from the first and last
member (`items[0]`, `items[items.length - 1]`). -/
def rangeItem.ofItems (l : List item) : rangeItem :=
  let first := l.headI
  let lastItem := (l.getLast?).getD default
  let text := first.content ++ " - " ++ lastItem.content
  { items := l
    group := first.group
    id := first.id ++ "-" ++ lastItem.id
    title := text
    content := text
    start := first.start
    stop := lastItem.start }

/-- An entry of the array pushed to `timeline.setItems`: either a raw `item` or a
`rangeItem`. -/
inductive timelineItem where
  | single (i : item)
  | range (r : rangeItem)
  deriving DecidableEq, Repr

/-- `processArray` from `refreshItems`: a run of zero items vanishes, one or two items
are pushed unchanged, three or more collapse into one `rangeItem`. -/
def processArray (itemArray : List item) : List timelineItem :=
  match itemArray with
  | [] => []
  | [a] => [.single a]
  | [a, b] => [.single a, .single b]
  | l => [.range (rangeItem.ofItems l)]

/-- `itemArray[0] = i` on a JS array: overwrite index 0 (append when empty). -/
def setIndexZero (a : List item) (i : item) : List item :=
  match a with
  | [] => [i]
  | _ :: rest => i :: rest

/-- The aggregation loop of `refreshItems` over the sorted row items: `latestStart`
starts as `null` and afterwards holds the previous item's start (a date object, hence
always truthy — embedded as `Option Time`); a gap below `criticalDuration` extends the
current run, otherwise the run is flushed through `processArray`. -/
def refreshWalk (crit : Time) : List item → List item → Option Time → List timelineItem
  | [], itemArray, _ => processArray itemArray
  | i :: rest, itemArray, latestStart =>
    match latestStart with
    | some t =>
      if i.start - t < crit then
        refreshWalk crit rest (itemArray ++ [i]) (some i.start)
      else
        processArray itemArray ++ refreshWalk crit rest [i] (some i.start)
    | none => refreshWalk crit rest (setIndexZero itemArray i) (some i.start)

/-- `groupItems.sort((a, b) => a.start - b.start)`: stable ascending sort by start. -/
def insertSorted (i : item) : List item → List item
  | [] => [i]
  | j :: rest => if i.start ≤ j.start then i :: j :: rest else j :: insertSorted i rest

/-- Stable insertion sort by ascending start (the engine's `Array.sort` is stable). -/
def sortByStart : List item → List item
  | [] => []
  | i :: rest => insertSorted i (sortByStart rest)

/-- Visibility filter of `refreshItems`: `start <= item.start && item.start <= end`. -/
def visibleFilter (start stop : Time) (it : item) : Bool :=
  decide (start ≤ it.start) && decide (it.start ≤ stop)

/-- State of a `timelineViewer`: the `items`, `groups` and `selections` maps and the
stored `width`/`start`/`end` of the last refresh pass (`stop` embeds `end`). -/
structure TLState where
  items : List (String × item)
  groups : List String
  selections : List (String × item)
  width : Int
  start : Time
  stop : Time
  deriving DecidableEq, Repr, Inhabited

/-- Events emitted by the timeline viewer (`this.emit(elem, action)`), carrying the
element's id. -/
inductive TlEv where
  | create (id : String)
  | delete (id : String)
  | select (id : String)
  | deselect (id : String)
  deriving DecidableEq, Repr

/-- Data pushed to the rendering layer (`timeline.setItems` / `timeline.setSelection`). -/
inductive Push where
  | setItems (l : List timelineItem)
  | setSelection (ids : List String)
  deriving DecidableEq, Repr

/-- The aggregation branch of `refreshItems`: for every group row collect its member
items that lie in the visible window, sort by start and run the aggregation loop. -/
def aggregateItems (m : Model) (s : TLState) (crit : Time) : List timelineItem :=
  s.groups.foldl
    (fun acc gid =>
      match assocFind gid m.tgs with
      | none => acc
      | some tg =>
        let groupItems := tg.children.filterMap (fun cid =>
          match assocFind cid s.items with
          | some i => if visibleFilter s.start s.stop i then some i else none
          | none => none)
        acc ++ refreshWalk crit (sortByStart groupItems) [] none)
    []

/-- `isSelected`. -/
def isSelected (s : TLState) (i : item) : Bool :=
  (assocFind i.id s.selections).isSome

/-- The deselect-others loop of `toggleSelection`: walk the parent group's children;
a child with a currently selected item is removed from the selection, emitting
DESELECT.  Operates on the selections list, with the items map for `sg.item`. -/
def deselectSiblings (items : List (String × item)) :
    List String → List (String × item) → List (String × item) × List TlEv
  | [], sel => (sel, [])
  | c :: cs, sel =>
    match assocFind c items with
    | some it =>
      if (assocFind it.id sel).isSome then
        let r := deselectSiblings items cs (assocErase it.id sel)
        (r.1, TlEv.deselect it.id :: r.2)
      else deselectSiblings items cs sel
    | none => deselectSiblings items cs sel

/-- `timelineViewer.toggleSelection(i, select)`.  A null item is ignored; omitted
`select` flips the current state; selecting an unselected item whose group is
non-multiselect and has a super group first deselects the selected siblings under
that parent. -/
def toggleSelection (m : Model) (s : TLState) (iOpt : Option item) (sel : Option Bool) :
    TLState × List TlEv :=
  match iOpt with
  | none => (s, [])
  | some i =>
    let select := sel.getD (!(isSelected s i))
    if select then
      if isSelected s i then (s, [])
      else
        let r :=
          match assocFind i.spatialGroup m.sgs with
          | some sg =>
            match sg.superGroup with
            | some tgId =>
              if sg.multiselect then (s.selections, ([] : List TlEv))
              else
                match assocFind tgId m.tgs with
                | some tg => deselectSiblings s.items tg.children s.selections
                | none => (s.selections, [])
            | none => (s.selections, [])
          | none => (s.selections, [])
        ({ s with selections := assocSet i.id i r.1 }, r.2 ++ [TlEv.select i.id])
    else
      if (assocFind i.id s.selections).isSome then
        ({ s with selections := assocErase i.id s.selections }, [TlEv.deselect i.id])
      else (s, [])

/-- `timelineViewer.createItem(g)`, called with the id of the spatial group.  On the
create path the source function has no return statement (it falls through after the
settings-selection check), so the returned value is `none` there; the early-exit path
returns the already registered item. -/
def createItem (m : Model) (s : TLState) (gId : String) :
    TLState × Option item × List TlEv :=
  match assocFind gId m.sgs with
  | none => (s, none, [])
  | some g =>
    match assocFind gId s.items with
    | some it => (s, some it, [])
    | none =>
      let it := item.ofGroup g
      let s1 : TLState := { s with items := assocSet it.id it s.items }
      if m.settingsSelections.contains it.id then
        let r := toggleSelection m s1 (some it) (some true)
        (r.1, none, TlEv.create it.id :: r.2)
      else
        (s1, none, [TlEv.create it.id])

/-- JS `new Set(val)` iteration order: first occurrences, in order. -/
def dedupFirstAux (seen : List String) : List String → List String
  | [] => []
  | x :: rest =>
    if seen.contains x then dedupFirstAux seen rest
    else x :: dedupFirstAux (x :: seen) rest

/-- Deduplicate keeping first occurrences. -/
def dedupFirst (l : List String) : List String :=
  dedupFirstAux [] l

/-- Phase 1 of the `settings.timeline.selections` subscription: walk the current
selections, deselecting every item whose id is not in the pushed set. -/
def selectionsPhase1 (m : Model) (val : List String)
    (entries : List (String × item)) (st : TLState × List TlEv) : TLState × List TlEv :=
  entries.foldl
    (fun st p =>
      if val.contains p.2.id then st
      else
        let r := toggleSelection m st.1 (some p.2) (some false)
        (r.1, st.2 ++ r.2))
    st

/-- Phase 2 of the subscription: walk the pushed id set, selecting `getItem(i)`. -/
def selectionsPhase2 (m : Model) (ids : List String) (st : TLState × List TlEv) :
    TLState × List TlEv :=
  ids.foldl
    (fun st id =>
      let r := toggleSelection m st.1 (assocFind id st.1.items) (some true)
      (r.1, st.2 ++ r.2))
    st

/-- The `settings.timeline.selections.subscribe` handler: deselect the selected items
missing from the pushed set, then select every pushed id that resolves to an item. -/
def selectionsPush (m : Model) (s : TLState) (val : List String) : TLState × List TlEv :=
  selectionsPhase2 m (dedupFirst val) (selectionsPhase1 m val s.selections (s, []))

/-- What `refreshItems` measures before its guard: the pixel width of the timeline
body and the current window, plus the `millisecondsPerPixelCache` (absent or zero is
falsy in JS, so both are embedded as `none`) and the `aggregateItems` setting. -/
structure TLEnv where
  width : Int
  winStart : Time
  winEnd : Time
  msPerPixelCache : Option Int
  aggregate : Bool
  deriving DecidableEq, Repr

/-- `millisecondsPerPixelCache || (window.end - window.start) / width`. -/
def msPerPixel (env : TLEnv) : Int :=
  env.msPerPixelCache.getD ((env.winEnd - env.winStart) / env.width)

/-- The computed left window bound `new Date(window.start - itemWidth * mspp)`. -/
def computedStart (env : TLEnv) : Time :=
  env.winStart - 160 * msPerPixel env

/-- The computed right window bound (`window.end`). -/
def computedStop (env : TLEnv) : Time :=
  env.winEnd

/-- `criticalDuration = millisecondsPerPixel * itemWidth / 2`. -/
def criticalDuration (env : TLEnv) : Time :=
  msPerPixel env * 160 / 2

/-- `timelineViewer.refreshItems(force)`: recompute the window and scale, return
early when `force` is unset and neither the width nor the window bounds changed,
otherwise store them, rebuild the item collection (aggregated or raw) and re-apply
the selection. -/
def refreshItems (m : Model) (env : TLEnv) (s : TLState) (force : Bool) :
    TLState × List Push :=
  let width := env.width
  let start := computedStart env
  let stop := computedStop env
  if !force && decide (width = s.width) && decide (start = s.start)
      && decide (stop = s.stop) then
    (s, [])
  else
    let s : TLState := { s with width := width, start := start, stop := stop }
    if env.aggregate then
      (s, [Push.setItems (aggregateItems m s (criticalDuration env)),
           Push.setSelection (s.selections.map (fun p => p.1))])
    else
      (s, [Push.setItems (s.items.map (fun p => timelineItem.single p.2)),
           Push.setSelection (s.selections.map (fun p => p.1))])

/-! ### The batch tour loader (`algorithms.loadGraph`) -/

/-- An edge entry of a vertex's `outgoingEdges` array in the tour JSON. -/
structure JsonEdge where
  eid : String
  deriving DecidableEq, Repr

/-- A vertex entry of the tour JSON, with its embedded `outgoingEdges`. -/
structure JsonVertex where
  vid : String
  outgoingEdges : List JsonEdge
  deriving DecidableEq, Repr

/-- A spatial-group entry of the tour JSON, with its embedded `vertices`. -/
structure JsonSpatialGroup where
  sid : String
  vertices : List JsonVertex
  deriving DecidableEq, Repr

/-- A temporal-group entry of the tour JSON, with its embedded `subGroups`. -/
structure JsonTemporalGroup where
  tid : String
  subGroups : List JsonSpatialGroup
  deriving DecidableEq, Repr

/-- The tour JSON as `loadGraph` reads it. -/
structure TourJson where
  temporalGroups : List JsonTemporalGroup
  spatialGroups : List JsonSpatialGroup
  vertices : List JsonVertex
  deriving DecidableEq, Repr

/-- Modelled from the spec: whether `model.createTemporalGroup` / `createSpatialGroup`
/ `createVertex` / `createEdge` succeeds for a given entity (a throwing creation is a
per-entity `ValidationError`); the registry itself is not among the given sources. -/
structure ModelOracle where
  okT : String → Bool
  okS : String → Bool
  okV : String → Bool
  okE : String → Bool

/-- One try/catch step of a creation phase of `loadGraph`: on success append the
entity's embedded children to the next phase's list, on failure clear the success flag
and log the entity's id; the loop continues either way. -/
def phaseStep {γ δ : Type} (ok : γ → Bool) (idOf : γ → String) (sub : γ → List δ)
    (st : Bool × List String × List δ) (x : γ) : Bool × List String × List δ :=
  if ok x then (st.1, st.2.1, st.2.2 ++ sub x)
  else (false, st.2.1 ++ [idOf x], st.2.2)

/-- One try/catch step of the final edge phase of `loadGraph`. -/
def lastStep {γ : Type} (ok : γ → Bool) (idOf : γ → String)
    (st : Bool × List String) (x : γ) : Bool × List String :=
  if ok x then st else (false, st.2 ++ [idOf x])

/-- `algorithms.loadGraph(tour, rootDirectory)`: four phases, each looping over its
entity list in a try/catch — a throwing creation is logged (here: its id appended to
the log) and clears the success flag, and the loop continues; successful groups append
their embedded children to the next phase's list. -/
def loadGraph (o : ModelOracle) (tour : TourJson) : Bool × List String :=
  let st1 :=
    tour.temporalGroups.foldl
      (phaseStep (fun tg => o.okT tg.tid) (fun tg => tg.tid) (fun tg => tg.subGroups))
      (true, [], tour.spatialGroups)
  let su1 :=
    st1.2.2.foldl
      (phaseStep (fun sg => o.okS sg.sid) (fun sg => sg.sid) (fun sg => sg.vertices))
      (st1.1, st1.2.1, tour.vertices)
  let sv1 :=
    su1.2.2.foldl
      (phaseStep (fun v => o.okV v.vid) (fun v => v.vid) (fun v => v.outgoingEdges))
      (su1.1, su1.2.1, [])
  sv1.2.2.foldl (lastStep (fun e => o.okE e.eid) (fun e => e.eid)) (sv1.1, sv1.2.1)

/-- The spatial groups `loadGraph` processes: the tour's own list followed by the
`subGroups` of every successfully created temporal group, in order. -/
def processedSGs (o : ModelOracle) (tour : TourJson) : List JsonSpatialGroup :=
  tour.spatialGroups ++ (tour.temporalGroups.filter (fun tg => o.okT tg.tid)).flatMap
    (fun tg => tg.subGroups)

/-- The vertices `loadGraph` processes. -/
def processedVs (o : ModelOracle) (tour : TourJson) : List JsonVertex :=
  tour.vertices ++ ((processedSGs o tour).filter (fun sg => o.okS sg.sid)).flatMap
    (fun sg => sg.vertices)

/-- The edges `loadGraph` processes. -/
def processedEs (o : ModelOracle) (tour : TourJson) : List JsonEdge :=
  ((processedVs o tour).filter (fun v => o.okV v.vid)).flatMap
    (fun v => v.outgoingEdges)

/-! ### The map viewer -/

/-- Modelled from the spec: the `type` of an edge model object. -/
inductive edgeType where
  | route
  | temporal
  | landmark
  | temp
  deriving DecidableEq, Repr

/-- Modelled from the spec: an `edge` model object as the map viewer reads it:
endpoints (`src`/`dst` embed the source fields `from`/`to`, Lean keywords), type and
the optional paired opposite edge. -/
structure edgeM where
  id : String
  src : String
  dst : String
  typ : edgeType
  opposite : Option String
  deriving DecidableEq, Repr

/-- Modelled from the spec: a `vertex` model object as the map viewer reads it;
`vertex.forEach` iterates its outgoing edges. -/
structure vertexM where
  id : String
  spatialGroup : String
  outgoing : List String
  deriving DecidableEq, Repr

/-- The model graph the map viewer projects. -/
structure Graph where
  vertices : List (String × vertexM)
  edges : List (String × edgeM)
  deriving DecidableEq, Repr

/-- A `line` heap object: the constructing edge and its Leaflet polyline layer
(`delete elem.layer` in `deleteLine` clears the layer while the object survives). -/
structure lineObj where
  edge : String
  layer : Option Nat
  deriving DecidableEq, Repr

/-- Physical placement of a point's Leaflet layer. -/
inductive container where
  | onMap
  | inGroup (parent : Nat)
  | detached
  deriving DecidableEq, Repr

/-- State of a `mapViewer`.  Layers are identified by numbers drawn from `fresh`.
`points` is the `v.point` back-reference (vertex id to point layer id), `visible` the
set of point layers attached to the map, `lineRefs` the `e.line` back-references
(edge id to line object id), `lineGroup` the layers inside the shared line container,
`layersMap` the `this.layers` lookup, `layerGroups` the `g.layerGroup` back-references,
`pointParent` the recorded `elem.parent` and `pointContainer` the physical placement
of each point layer, `layerTreeVersion` counts `updateLayerTree` calls. -/
structure MapState where
  fresh : Nat
  points : List (String × Nat)
  visible : List Nat
  lineRefs : List (String × Nat)
  lineObjs : List (Nat × lineObj)
  lineGroup : List Nat
  layersMap : List Nat
  layerGroups : List (String × Nat)
  pointParent : List (Nat × Option Nat)
  pointContainer : List (Nat × container)
  layerTreeVersion : Nat
  deriving DecidableEq, Repr

/-- Events emitted by the map viewer that the claims mention. -/
inductive mapEv where
  | createdLine (objId : Nat)
  | deletedLine (objId : Nat)
  deriving DecidableEq, Repr

/-- `isVisible(v.point)` guarded by `v.point`: the vertex has a point and its layer is
attached to the map. -/
def endpointVisible (s : MapState) (vId : String) : Bool :=
  match assocFind vId s.points with
  | some p => s.visible.contains p
  | none => false

/-- `e.from.point && e.to.point && isVisible(e.from.point) && isVisible(e.to.point)`. -/
def bothEndpointsVisible (s : MapState) (e : edgeM) : Bool :=
  endpointVisible s e.src && endpointVisible s e.dst

/-- The layer of `e.line`, when the edge has a line whose layer is alive. -/
def lineLayerOf (s : MapState) (eId : String) : Option Nat :=
  match assocFind eId s.lineRefs with
  | none => none
  | some lid => (assocFind lid s.lineObjs).bind (fun ob => ob.layer)

/-- `mapViewer.createLine(e)`: an existing line is returned unchanged; a TEMPORAL edge
produces no line at all; otherwise the `line` constructor installs the shared object
on the edge and its opposite, the layer is registered, and it is attached to the line
container exactly when both endpoint points exist and are visible. -/
def createLine (g : Graph) (s : MapState) (eId : String) :
    MapState × Option Nat × List mapEv :=
  match assocFind eId s.lineRefs with
  | some lid => (s, some lid, [])
  | none =>
    match assocFind eId g.edges with
    | none => (s, none, [])
    | some e =>
      if e.typ = edgeType.temporal then (s, none, [])
      else
        let lid := s.fresh
        let ly := s.fresh + 1
        let refs1 := assocSet eId lid s.lineRefs
        let refs2 :=
          match e.opposite with
          | some o => assocSet o lid refs1
          | none => refs1
        let lg := if bothEndpointsVisible s e then ly :: s.lineGroup else s.lineGroup
        ({ s with
            fresh := s.fresh + 2
            lineRefs := refs2
            lineObjs := assocSet lid { edge := eId, layer := some ly } s.lineObjs
            layersMap := ly :: s.layersMap
            lineGroup := lg },
          some lid, [mapEv.createdLine lid])

/-- `mapViewer.deleteLine(e)`: no-op without a line; otherwise remove and destroy the
layer if it is still alive, clear the line reference of the edge and of its opposite,
and emit one DELETE. -/
def deleteLine (g : Graph) (s : MapState) (eId : String) : MapState × List mapEv :=
  match assocFind eId s.lineRefs with
  | none => (s, [])
  | some lid =>
    let s1 :=
      match assocFind lid s.lineObjs with
      | some obj =>
        match obj.layer with
        | some ly =>
          { s with
              lineGroup := s.lineGroup.filter (fun x => decide (x ≠ ly))
              layersMap := s.layersMap.filter (fun x => decide (x ≠ ly))
              lineObjs := assocSet lid { obj with layer := none } s.lineObjs }
        | none => s
      | none => s
    let refs1 := assocErase eId s1.lineRefs
    let refs2 :=
      match (assocFind eId g.edges).bind (fun e => e.opposite) with
      | some o => assocErase o refs1
      | none => refs1
    ({ s1 with lineRefs := refs2 }, [mapEv.deletedLine lid])

/-- One step of the point 'add' listener loop: for an outgoing edge with a line whose
other endpoint's point is visible, attach the line's layer to the line container
(Leaflet's `addLayer` ignores a layer that is already contained). -/
def addStep (g : Graph) (s : MapState) (eId : String) : MapState :=
  match assocFind eId g.edges with
  | none => s
  | some e =>
    if (assocFind eId s.lineRefs).isSome && endpointVisible s e.dst then
      match lineLayerOf s eId with
      | some ly =>
        { s with lineGroup := if s.lineGroup.contains ly then s.lineGroup else ly :: s.lineGroup }
      | none => s
    else s

/-- The point 'add' listener body: `p.vertex.forEach(e => ...)`. -/
def pointAddFold (g : Graph) (l : List String) (s : MapState) : MapState :=
  l.foldl (addStep g) s

/-- One step of the point 'remove' listener loop: an outgoing edge with a line has the
line's layer removed from the line container. -/
def removeStep (s : MapState) (eId : String) : MapState :=
  if (assocFind eId s.lineRefs).isSome then
    match lineLayerOf s eId with
    | some ly => { s with lineGroup := s.lineGroup.filter (fun x => decide (x ≠ ly)) }
    | none => s
  else s

/-- The point 'remove' listener body. -/
def pointRemoveFold (l : List String) (s : MapState) : MapState :=
  l.foldl removeStep s

/-- Attaching a vertex's point to the map: the layer becomes visible, then the 'add'
listener registered in `createPoint` runs over the vertex's outgoing edges. -/
def showPoint (g : Graph) (s : MapState) (vId : String) : MapState :=
  match assocFind vId s.points, assocFind vId g.vertices with
  | some p, some v =>
    pointAddFold g v.outgoing
      { s with visible := if s.visible.contains p then s.visible else p :: s.visible }
  | _, _ => s

/-- Detaching a vertex's point from the map: the layer stops being visible, then the
'remove' listener registered in `createPoint` runs over the vertex's outgoing edges. -/
def hidePoint (g : Graph) (s : MapState) (vId : String) : MapState :=
  match assocFind vId s.points, assocFind vId g.vertices with
  | some p, some v =>
    pointRemoveFold v.outgoing
      { s with visible := s.visible.filter (fun x => decide (x ≠ p)) }
  | _, _ => s

/-- `deriveParent` for a point: the layer group of the vertex's spatial group (the
source dereferences the model objects directly; a missing vertex would throw and is
unreachable in the states considered). -/
def deriveParentPoint (g : Graph) (s : MapState) (vId : String) : Option Nat :=
  match assocFind vId g.vertices with
  | none => none
  | some v => assocFind v.spatialGroup s.layerGroups

/-- `removeFromParent` for a point layer: physically leave the recorded parent's layer
(a `removeLayer` on a group the layer is not in does nothing), then clear the recorded
parent. -/
def removeFromParentPoint (s : MapState) (p : Nat) : MapState :=
  let recorded := (assocFind p s.pointParent).getD none
  let s1 :=
    match recorded with
    | some pr =>
      match assocFind p s.pointContainer with
      | some (container.inGroup q) =>
        if q = pr then { s with pointContainer := assocSet p container.detached s.pointContainer }
        else s
      | _ => s
    | none => s
  { s1 with pointParent := assocSet p none s1.pointParent }

/-- `addToDerivedParent` for a point layer: record the derived parent and attach the
layer to it (or to the map when the derived parent is null). -/
def addToDerivedParentPoint (g : Graph) (s : MapState) (vId : String) (p : Nat) :
    MapState :=
  let derived := deriveParentPoint g s vId
  { s with
      pointParent := assocSet p derived s.pointParent
      pointContainer :=
        assocSet p (match derived with
          | some n => container.inGroup n
          | none => container.onMap) s.pointContainer }

/-- `mapViewer.updateParent(v)` for a vertex: a no-op when the recorded parent equals
the derived one, otherwise detach, attach to the derived parent and refresh the layer
tree. -/
def updateParent (g : Graph) (s : MapState) (vId : String) : MapState :=
  match assocFind vId s.points with
  | none => s
  | some p =>
    let recorded := (assocFind p s.pointParent).getD none
    if recorded = deriveParentPoint g s vId then s
    else
      let s1 := removeFromParentPoint s p
      let s2 := addToDerivedParentPoint g s1 vId p
      { s2 with layerTreeVersion := s2.layerTreeVersion + 1 }

/-! ### Statement-level definitions -/

/-- The flush rule as the spec states it: a run of one or two items is emitted
unchanged, a run of three or more collapses into one `rangeItem` spanning first to
last. -/
def flushRun (r : List item) : List timelineItem :=
  if 3 ≤ r.length then [timelineItem.range (rangeItem.ofItems r)]
  else r.map timelineItem.single

/-- All consecutive start-time gaps along `t` followed by the items of `l` lie below
`crit`. -/
def startsChainLt (crit : Time) : Time → List item → Bool
  | _, [] => true
  | t, i :: rest => decide (i.start - t < crit) && startsChainLt crit i.start rest

/-- Start of the last item, or the given default when the list is empty. -/
def lastStartOf (t : Time) (l : List item) : Time :=
  match l.getLast? with
  | some j => j.start
  | none => t

/-- The runs following an item that starts at `t` are nonempty, internally dense
(consecutive gaps below `crit`) and separated from their predecessor by a gap of at
least `crit`. -/
def runsSeparated (crit : Time) : Time → List (List item) → Bool
  | _, [] => true
  | t, r :: rest =>
    match r with
    | [] => false
    | i :: is =>
      decide (crit ≤ i.start - t) && startsChainLt crit i.start is &&
        runsSeparated crit (lastStartOf i.start is) rest

/-- A maximal-run decomposition: every run nonempty and internally dense, consecutive
runs separated by gaps of at least `crit`. -/
def runsValid (crit : Time) : List (List item) → Bool
  | [] => true
  | r :: rest =>
    match r with
    | [] => false
    | i :: is =>
      startsChainLt crit i.start is && runsSeparated crit (lastStartOf i.start is) rest

/-- The ids the deselect-others loop removes: children of the parent group that have
an item which is currently selected. -/
def deselIds (items sel : List (String × item)) (cs : List String) : List String :=
  cs.filter (fun c => (assocFind c items).isSome && (assocFind c sel).isSome)

/-- Well-formedness of the viewer's item-keyed maps: every stored item carries its key
as id (`createItem` keys the maps by `it.id`). -/
abbrev itemsWF (l : List (String × item)) : Prop := ∀ p ∈ l, p.2.id = p.1

/-- The pairs phase 2 of the selections subscription newly selects: walked ids that
resolve to an item and are not currently selected, paired with their item. -/
def phase2Adds (items sel : List (String × item)) (ids : List String) :
    List (String × item) :=
  ids.filterMap (fun id =>
    match assocFind id items with
    | some it => if (assocFind id sel).isSome then none else some (id, it)
    | none => none)

/-- Edge `eId` currently has a line object whose live layer is `ly`. -/
def remCond (s : MapState) (eId : String) (ly : Nat) : Bool :=
  (assocFind eId s.lineRefs).isSome && decide (lineLayerOf s eId = some ly)

/-- The 'add' listener attaches layer `ly` when reaching edge `eId`: the edge exists,
has a line whose live layer is `ly`, and its other endpoint's point is visible. -/
def addCond (g : Graph) (s : MapState) (eId : String) (ly : Nat) : Bool :=
  match assocFind eId g.edges with
  | none => false
  | some e =>
    (assocFind eId s.lineRefs).isSome && endpointVisible s e.dst &&
      decide (lineLayerOf s eId = some ly)

/-! ### Concrete instances used by witnesses and counterexamples -/

/-- A timeline item of the aggregation example (one per spatial group). -/
def exItemAt (name : String) (t : Time) : item :=
  { group := "T", id := name, title := name, content := name, start := t,
    spatialGroup := name }

/-- The aggregation example of the spec: starts 0, 1, 2, 100, 101. -/
def exI0 : item := exItemAt "g0" 0

/-- Aggregation example item at t = 1. -/
def exI1 : item := exItemAt "g1" 1

/-- Aggregation example item at t = 2. -/
def exI2 : item := exItemAt "g2" 2

/-- Aggregation example item at t = 100. -/
def exI100 : item := exItemAt "g100" 100

/-- Aggregation example item at t = 101. -/
def exI101 : item := exItemAt "g101" 101

/-- The maximal runs of the aggregation example for criticalDuration 5. -/
def exRuns : List (List item) := [[exI0, exI1, exI2], [exI100, exI101]]

/-- Model for the aggregation example: one row (temporal group) with five members. -/
def exModel : Model :=
  { sgs := []
    tgs := [("T", { id := "T", children := ["g0", "g1", "g2", "g100", "g101"] })]
    settingsSelections := [] }

/-- Viewer state for the aggregation example; the stored window covers all starts. -/
def exTLState : TLState :=
  { items := [("g0", exI0), ("g1", exI1), ("g2", exI2), ("g100", exI100),
      ("g101", exI101)]
    groups := ["T"]
    selections := []
    width := 800
    start := -200
    stop := 200 }

/-- A multiselect spatial group under temporal group T. -/
def sgMS (n : String) : spatialGroupM :=
  { id := n, name := n, description := "", timeslot := 0, superGroup := some "T",
    multiselect := true }

/-- A non-multiselect spatial group under temporal group T. -/
def sgNM (n : String) : spatialGroupM :=
  { id := n, name := n, description := "", timeslot := 0, superGroup := some "T",
    multiselect := false }

/-- Model with one multiselect group A used for the createItem scenario. -/
def mC2 : Model :=
  { sgs := [("A", sgMS "A")]
    tgs := [("T", { id := "T", children := ["A"] })]
    settingsSelections := [] }

/-- An empty timeline viewer state. -/
def s0TL : TLState :=
  { items := [], groups := [], selections := [], width := 0, start := 0, stop := 0 }

/-- Model with three non-multiselect siblings A, B, C under T. -/
def mNM : Model :=
  { sgs := [("A", sgNM "A"), ("B", sgNM "B"), ("C", sgNM "C")]
    tgs := [("T", { id := "T", children := ["A", "B", "C"] })]
    settingsSelections := [] }

/-- The item of non-multiselect group A. -/
def itA : item := item.ofGroup (sgNM "A")

/-- The item of non-multiselect group B. -/
def itB : item := item.ofGroup (sgNM "B")

/-- The item of non-multiselect group C. -/
def itC : item := item.ofGroup (sgNM "C")

/-- Viewer state with items A, B, C and A currently selected. -/
def sSel : TLState :=
  { items := [("A", itA), ("B", itB), ("C", itC)]
    groups := ["T"]
    selections := [("A", itA)]
    width := 0, start := 0, stop := 0 }

/-- Viewer state with items A, B, C and nothing selected. -/
def sNone : TLState :=
  { items := [("A", itA), ("B", itB), ("C", itC)]
    groups := ["T"]
    selections := []
    width := 0, start := 0, stop := 0 }

/-- Model with three multiselect siblings A, B, C under T. -/
def mMS : Model :=
  { sgs := [("A", sgMS "A"), ("B", sgMS "B"), ("C", sgMS "C")]
    tgs := [("T", { id := "T", children := ["A", "B", "C"] })]
    settingsSelections := [] }

/-- The item of multiselect group A. -/
def itMA : item := item.ofGroup (sgMS "A")

/-- The item of multiselect group B. -/
def itMB : item := item.ofGroup (sgMS "B")

/-- The item of multiselect group C. -/
def itMC : item := item.ofGroup (sgMS "C")

/-- Multiselect viewer state with A and B selected. -/
def sMS : TLState :=
  { items := [("A", itMA), ("B", itMB), ("C", itMC)]
    groups := ["T"]
    selections := [("A", itMA), ("B", itMB)]
    width := 0, start := 0, stop := 0 }

/-- An empty map viewer state. -/
def sM0 : MapState :=
  { fresh := 0, points := [], visible := [], lineRefs := [], lineObjs := []
    lineGroup := [], layersMap := [], layerGroups := [], pointParent := []
    pointContainer := [], layerTreeVersion := 0 }

/-- Graph with a bidirectional pair e (u to v) and f (v to u). -/
def gBi : Graph :=
  { vertices := [("u", { id := "u", spatialGroup := "G", outgoing := ["e"] }),
      ("v", { id := "v", spatialGroup := "G", outgoing := ["f"] })]
    edges := [("e", { id := "e", src := "u", dst := "v", typ := edgeType.route, opposite := some "f" }),
      ("f", { id := "f", src := "v", dst := "u", typ := edgeType.route, opposite := some "e" })] }

/-- Map state for `gBi` with both points created and visible. -/
def sBi : MapState :=
  { fresh := 2, points := [("u", 0), ("v", 1)], visible := [0, 1], lineRefs := []
    lineObjs := [], lineGroup := [], layersMap := [], layerGroups := []
    pointParent := [], pointContainer := [], layerTreeVersion := 0 }

/-- Graph with a single one-directional edge e from u to v. -/
def gUni : Graph :=
  { vertices := [("u", { id := "u", spatialGroup := "G", outgoing := ["e"] }),
      ("v", { id := "v", spatialGroup := "G", outgoing := [] })]
    edges := [("e", { id := "e", src := "u", dst := "v", typ := edgeType.route, opposite := none })] }

/-- Map state for `gUni`: both points visible, the line of e created and attached. -/
def sUni : MapState :=
  { fresh := 4, points := [("u", 0), ("v", 1)], visible := [0, 1]
    lineRefs := [("e", 2)], lineObjs := [(2, { edge := "e", layer := some 3 })]
    lineGroup := [3], layersMap := [3], layerGroups := [], pointParent := []
    pointContainer := [], layerTreeVersion := 0 }

/-- Map state for `gBi` with both points visible and the shared line of e/f attached. -/
def sBiLine : MapState :=
  { fresh := 4, points := [("u", 0), ("v", 1)], visible := [0, 1]
    lineRefs := [("e", 2), ("f", 2)], lineObjs := [(2, { edge := "e", layer := some 3 })]
    lineGroup := [3], layersMap := [3], layerGroups := [], pointParent := []
    pointContainer := [], layerTreeVersion := 0 }

/-- Graph for the re-parenting scenario: vertex v now belongs to G2, vertex w to G1. -/
def gRe : Graph :=
  { vertices := [("v", { id := "v", spatialGroup := "G2", outgoing := [] }),
      ("w", { id := "w", spatialGroup := "G1", outgoing := [] })]
    edges := [] }

/-- Map state for the re-parenting scenario: both points recorded under G1's layer
group 10; G2's layer group is 11. -/
def sRe : MapState :=
  { fresh := 20, points := [("v", 1), ("w", 2)], visible := [1, 2], lineRefs := []
    lineObjs := [], lineGroup := [], layersMap := []
    layerGroups := [("G1", 10), ("G2", 11)]
    pointParent := [(1, some 10), (2, some 10)]
    pointContainer := [(1, container.inGroup 10), (2, container.inGroup 10)]
    layerTreeVersion := 0 }

/-- Graph with one TEMPORAL edge t from u to v. -/
def gTemp : Graph :=
  { vertices := [("u", { id := "u", spatialGroup := "G", outgoing := ["t"] }),
      ("v", { id := "v", spatialGroup := "G", outgoing := [] })]
    edges := [("t", { id := "t", src := "u", dst := "v", typ := edgeType.temporal, opposite := none })] }

/-- A concrete refresh environment for the no-op guard witness. -/
def envW : TLEnv :=
  { width := 100, winStart := 0, winEnd := 1000, msPerPixelCache := none,
    aggregate := true }

/-! ## Association-list lemmas -/

theorem assocFind_set_self {α β : Type} [DecidableEq α] (k : α) (v : β)
    (l : List (α × β)) : assocFind k (assocSet k v l) = some v := by
  induction l with
  | nil => simp [assocSet, assocFind]
  | cons p rest ih =>
    obtain ⟨a, b⟩ := p
    by_cases h : a = k
    · simp [assocSet, h, assocFind]
    · simp [assocSet, h, assocFind, ih]

theorem assocFind_set_ne {α β : Type} [DecidableEq α] {k k' : α} (v : β)
    (l : List (α × β)) (h : k' ≠ k) :
    assocFind k' (assocSet k v l) = assocFind k' l := by
  induction l with
  | nil => simp [assocSet, assocFind, Ne.symm h]
  | cons p rest ih =>
    obtain ⟨a, b⟩ := p
    by_cases hp : a = k
    · have ha : a ≠ k' := by rw [hp]; exact Ne.symm h
      simp [assocSet, hp, assocFind, Ne.symm h, ha]
    · simp [assocSet, hp, assocFind, ih]

theorem assocFind_erase_self {α β : Type} [DecidableEq α] (k : α)
    (l : List (α × β)) : assocFind k (assocErase k l) = none := by
  induction l with
  | nil => simp [assocErase, assocFind]
  | cons p rest ih =>
    obtain ⟨a, b⟩ := p
    by_cases hp : a = k
    · simpa [assocErase, hp] using ih
    · simpa [assocErase, hp, assocFind] using ih

theorem assocFind_erase_ne {α β : Type} [DecidableEq α] {k k' : α}
    (l : List (α × β)) (h : k' ≠ k) :
    assocFind k' (assocErase k l) = assocFind k' l := by
  induction l with
  | nil => simp [assocErase, assocFind]
  | cons p rest ih =>
    obtain ⟨a, b⟩ := p
    by_cases hp : a = k
    · have ha : a ≠ k' := by rw [hp]; exact Ne.symm h
      simp [assocErase, hp, assocFind, ha, ih, Ne.symm h]
    · by_cases hq : a = k'
      · simp [assocErase, hp, assocFind, hq, h]
      · simp [assocErase, hp, assocFind, hq, ih]

theorem assocFind_mem {α β : Type} [DecidableEq α] {k : α} {v : β}
    {l : List (α × β)} (h : assocFind k l = some v) : (k, v) ∈ l := by
  induction l with
  | nil => simp [assocFind] at h
  | cons p rest ih =>
    obtain ⟨a, b⟩ := p
    by_cases hp : a = k
    · simp only [assocFind, if_pos hp] at h
      have hv : b = v := by injection h
      subst hv
      subst hp
      exact List.mem_cons_self _ _
    · simp only [assocFind, if_neg hp] at h
      exact List.mem_cons_of_mem _ (ih h)

/-! ## Claim C5: batch tour loading -/

theorem loadPhase_foldl {γ δ : Type} (ok : γ → Bool) (idOf : γ → String)
    (sub : γ → List δ) (l : List γ) :
    ∀ (b : Bool) (log : List String) (acc : List δ),
      l.foldl (phaseStep ok idOf sub) (b, log, acc)
      = (b && l.all ok,
         log ++ (l.filter (fun x => !(ok x))).map idOf,
         acc ++ (l.filter ok).flatMap sub) := by
  induction l with
  | nil => intro b log acc; simp
  | cons x xs ih =>
    intro b log acc
    by_cases h : ok x = true
    · simp [phaseStep, h, ih]
    · simp only [Bool.not_eq_true] at h
      simp [phaseStep, h, ih, Bool.false_and]

theorem loadLast_foldl {γ : Type} (ok : γ → Bool) (idOf : γ → String) (l : List γ) :
    ∀ (b : Bool) (log : List String),
      l.foldl (lastStep ok idOf) (b, log)
      = (b && l.all ok, log ++ (l.filter (fun x => !(ok x))).map idOf) := by
  induction l with
  | nil => intro b log; simp
  | cons x xs ih =>
    intro b log
    by_cases h : ok x = true
    · simp [lastStep, h, ih]
    · simp only [Bool.not_eq_true] at h
      simp [lastStep, h, ih, Bool.false_and]

/-- Claim C5: during batch tour loading, an entity whose creation throws is logged and
skipped without aborting the batch — every remaining entity of each phase's list is
still processed, the log collects exactly the failed entities in order, and the
returned flag is the AND-reduction of per-entity success over every temporal group,
spatial group, vertex and edge processed (true iff none failed). -/
theorem loadGraph_and_reduction (o : ModelOracle) (tour : TourJson) :
    loadGraph o tour
      = (tour.temporalGroups.all (fun tg => o.okT tg.tid)
          && (processedSGs o tour).all (fun sg => o.okS sg.sid)
          && (processedVs o tour).all (fun v => o.okV v.vid)
          && (processedEs o tour).all (fun e => o.okE e.eid),
         (tour.temporalGroups.filter (fun tg => !(o.okT tg.tid))).map (fun tg => tg.tid)
          ++ ((processedSGs o tour).filter (fun sg => !(o.okS sg.sid))).map
              (fun sg => sg.sid)
          ++ ((processedVs o tour).filter (fun v => !(o.okV v.vid))).map
              (fun v => v.vid)
          ++ ((processedEs o tour).filter (fun e => !(o.okE e.eid))).map
              (fun e => e.eid)) := by
  simp only [loadGraph]
  simp only [loadPhase_foldl, loadLast_foldl]
  simp [processedSGs, processedVs, processedEs, Bool.and_assoc, List.append_assoc]

/-! ## Claim C10: TEMPORAL edges are never rendered -/

/-- Claim C10: for an edge of type TEMPORAL that has no line installed,
`mapViewer.createLine` returns null and creates nothing: the state (line references,
heap, line container, layer lookup) is untouched and no CREATE event is emitted. -/
theorem createLine_temporal_none (g : Graph) (s : MapState) (eId : String) (e : edgeM)
    (hE : assocFind eId g.edges = some e)
    (htyp : e.typ = edgeType.temporal)
    (href : assocFind eId s.lineRefs = none) :
    createLine g s eId = (s, none, []) := by
  simp [createLine, href, hE, htyp]

theorem createLine_temporal_none_witness :
    assocFind "t" gTemp.edges
        = some { id := "t", src := "u", dst := "v", typ := edgeType.temporal,
                 opposite := none }
    ∧ createLine gTemp sM0 "t" = (sM0, none, []) :=
  ⟨by decide,
   createLine_temporal_none gTemp sM0 "t"
     { id := "t", src := "u", dst := "v", typ := edgeType.temporal, opposite := none }
     (by decide) (by decide) (by decide)⟩

/-! ## Claim C2: create idempotence and the missing return -/

/-- Claim C2 (code bug): the second `createItem` call with the same id leaves the
state unchanged, emits no second CREATE and returns the registered item — but the
first call returns no entity at all: the source's create path has no return statement
(its doc comment promises the created item), so the two calls do not return the same
entity. -/
theorem createItem_return_divergence :
    createItem mC2 s0TL "A"
        = ({ s0TL with items := [("A", itMA)] }, none, [TlEv.create "A"])
    ∧ createItem mC2 (createItem mC2 s0TL "A").1 "A"
        = ((createItem mC2 s0TL "A").1, some itMA, [])
    ∧ (none : Option item) ≠ some itMA := by
  refine ⟨by decide, by decide, by decide⟩

/-! ## Claim C9: the refresh no-op guard -/

theorem refreshItems_fields (m : Model) (env : TLEnv) (s : TLState) (b : Bool) :
    ((refreshItems m env s b).1).width = env.width
    ∧ ((refreshItems m env s b).1).start = computedStart env
    ∧ ((refreshItems m env s b).1).stop = computedStop env := by
  unfold refreshItems
  by_cases h : (!b && decide (env.width = s.width) && decide (computedStart env = s.start)
      && decide (computedStop env = s.stop)) = true
  · simp only [h, if_true]
    simp only [Bool.and_eq_true, decide_eq_true_eq] at h
    exact ⟨h.1.1.2.symm, h.1.2.symm, h.2.symm⟩
  · simp only [h, if_false]
    by_cases ha : env.aggregate <;> simp [ha]

theorem refreshItems_early (m : Model) (env : TLEnv) (s : TLState)
    (h1 : env.width = s.width) (h2 : computedStart env = s.start)
    (h3 : computedStop env = s.stop) :
    refreshItems m env s false = (s, []) := by
  unfold refreshItems
  simp [h1, h2, h3]

/-- Claim C9: a second refresh with `force = false`, with the measured pixel width and
the computed visible-window bounds unchanged since the previous pass, returns before
any recomputation: the stored width/start/end stay untouched and nothing is pushed to
the rendering layer (no `setItems`, no `setSelection`). -/
theorem refreshItems_noop_guard (m : Model) (env1 env2 : TLEnv) (s : TLState) (b : Bool)
    (hw : env2.width = env1.width)
    (hs : computedStart env2 = computedStart env1)
    (he : computedStop env2 = computedStop env1) :
    refreshItems m env2 (refreshItems m env1 s b).1 false
      = ((refreshItems m env1 s b).1, []) := by
  obtain ⟨h1, h2, h3⟩ := refreshItems_fields m env1 s b
  exact refreshItems_early m env2 _ (hw.trans h1.symm) (hs.trans h2.symm)
    (he.trans h3.symm)

theorem refreshItems_noop_guard_witness :
    envW.width = envW.width
    ∧ refreshItems exModel envW (refreshItems exModel envW s0TL false).1 false
        = ((refreshItems exModel envW s0TL false).1, []) :=
  ⟨rfl, refreshItems_noop_guard exModel envW envW s0TL false rfl rfl rfl⟩

/-! ## Claim C8: re-parenting -/

theorem removeFromParentPoint_spec (s : MapState) (p : Nat) :
    (removeFromParentPoint s p).pointParent = assocSet p none s.pointParent
    ∧ (removeFromParentPoint s p).points = s.points
    ∧ (removeFromParentPoint s p).layerGroups = s.layerGroups
    ∧ (removeFromParentPoint s p).layerTreeVersion = s.layerTreeVersion
    ∧ (∀ q, q ≠ p → assocFind q (removeFromParentPoint s p).pointContainer
        = assocFind q s.pointContainer) := by
  rcases hrec : (assocFind p s.pointParent).getD none with _ | pr
  · simp [removeFromParentPoint, hrec]
  · rcases hc : assocFind p s.pointContainer with _ | c
    · simp [removeFromParentPoint, hrec, hc]
    · cases c with
      | onMap => simp [removeFromParentPoint, hrec, hc]
      | detached => simp [removeFromParentPoint, hrec, hc]
      | inGroup q0 =>
        by_cases hq0 : q0 = pr
        · simp only [removeFromParentPoint, hrec, hc, if_pos hq0]
          simp only [true_and, and_true]
          exact fun q hq => assocFind_set_ne _ _ hq
        · simp [removeFromParentPoint, hrec, hc, hq0]

theorem deriveParentPoint_congr (g : Graph) {s s' : MapState} (vId : String)
    (h : s'.layerGroups = s.layerGroups) :
    deriveParentPoint g s' vId = deriveParentPoint g s vId := by
  unfold deriveParentPoint
  rw [h]

/-- Claim C8: `updateParent` is a no-op when `deriveParent` agrees with the recorded
parent; when they disagree it detaches the point from the old parent, attaches it to
the newly derived parent (recording it and placing the layer inside it, or on the map
when the derived parent is null), bumps the layer tree, and leaves the recorded parent
and placement of every other point unchanged. -/
theorem updateParent_spec (g : Graph) (s : MapState) (vId : String) (p : Nat)
    (hp : assocFind vId s.points = some p) :
    ((assocFind p s.pointParent).getD none = deriveParentPoint g s vId →
        updateParent g s vId = s)
    ∧ ((assocFind p s.pointParent).getD none ≠ deriveParentPoint g s vId →
        (assocFind p (updateParent g s vId).pointParent
            = some (deriveParentPoint g s vId)
         ∧ assocFind p (updateParent g s vId).pointContainer
            = some (match deriveParentPoint g s vId with
                | some n => container.inGroup n
                | none => container.onMap)
         ∧ (updateParent g s vId).layerTreeVersion = s.layerTreeVersion + 1
         ∧ (∀ q, q ≠ p → assocFind q (updateParent g s vId).pointParent
              = assocFind q s.pointParent)
         ∧ (∀ q, q ≠ p → assocFind q (updateParent g s vId).pointContainer
              = assocFind q s.pointContainer)
         ∧ (updateParent g s vId).points = s.points)) := by
  obtain ⟨h1, h2, h3, h4, h5⟩ := removeFromParentPoint_spec s p
  have hder : deriveParentPoint g (removeFromParentPoint s p) vId
      = deriveParentPoint g s vId := deriveParentPoint_congr g vId h3
  constructor
  · intro h
    simp [updateParent, hp, h]
  · intro h
    simp only [updateParent, hp, if_neg h, addToDerivedParentPoint, hder]
    refine ⟨?_, ?_, ?_, ?_, ?_, ?_⟩
    · exact assocFind_set_self _ _ _
    · exact assocFind_set_self _ _ _
    · exact congrArg (fun n => n + 1) h4
    · intro q hq
      rw [assocFind_set_ne _ _ hq, h1, assocFind_set_ne _ _ hq]
    · intro q hq
      rw [assocFind_set_ne _ _ hq, h5 q hq]
    · exact h2

theorem updateParent_spec_witness :
    assocFind "v" sRe.points = some 1
    ∧ (assocFind 1 sRe.pointParent).getD none ≠ deriveParentPoint gRe sRe "v"
    ∧ deriveParentPoint gRe sRe "v" = some 11
    ∧ assocFind 1 (updateParent gRe sRe "v").pointParent = some (some 11)
    ∧ assocFind 1 (updateParent gRe sRe "v").pointContainer
        = some (container.inGroup 11)
    ∧ (updateParent gRe sRe "v").layerTreeVersion = sRe.layerTreeVersion + 1
    ∧ assocFind 2 (updateParent gRe sRe "v").pointParent = assocFind 2 sRe.pointParent := by
  have h := updateParent_spec gRe sRe "v" 1 (by decide)
  have h2 := h.2 (by decide)
  refine ⟨by decide, by decide, by decide, ?_, ?_, h2.2.2.1, h2.2.2.2.1 2 (by decide)⟩
  · have := h2.1
    rwa [show deriveParentPoint gRe sRe "v" = some 11 from by decide] at this
  · have := h2.2.1
    rwa [show deriveParentPoint gRe sRe "v" = some 11 from by decide] at this

/-! ## Claim C6: the shared bidirectional line -/

theorem deleteLine_noop (g : Graph) (s : MapState) (eId : String)
    (h : assocFind eId s.lineRefs = none) : deleteLine g s eId = (s, []) := by
  simp [deleteLine, h]

/-- Claim C6: for an edge e with defined opposite f (a symmetric pair), creating the
line through either edge installs one shared line object as the line reference of both
edges; calling `deleteLine` on either edge removes and destroys the shared layer
exactly once (it leaves the line container and the layer lookup, and the object's
layer is cleared), clears both line references and emits exactly one DELETE, after
which a `deleteLine` on the opposite edge is an event-free no-op. -/
theorem sharedLine_delete_once (g : Graph) (s : MapState) (eId oId : String)
    (e o : edgeM)
    (hE : assocFind eId g.edges = some e) (hO : assocFind oId g.edges = some o)
    (heo : e.opposite = some oId) (hoe : o.opposite = some eId)
    (hne : eId ≠ oId)
    (hle : assocFind eId s.lineRefs = none) (hlo : assocFind oId s.lineRefs = none)
    (het : e.typ ≠ edgeType.temporal) (hot : o.typ ≠ edgeType.temporal) :
    (assocFind eId (createLine g s eId).1.lineRefs = some s.fresh
      ∧ assocFind oId (createLine g s eId).1.lineRefs = some s.fresh
      ∧ (createLine g s eId).2.1 = some s.fresh)
    ∧ (assocFind eId (createLine g s oId).1.lineRefs = some s.fresh
      ∧ assocFind oId (createLine g s oId).1.lineRefs = some s.fresh
      ∧ (createLine g s oId).2.1 = some s.fresh)
    ∧ ((deleteLine g (createLine g s eId).1 eId).2 = [mapEv.deletedLine s.fresh]
      ∧ (s.fresh + 1) ∉ (deleteLine g (createLine g s eId).1 eId).1.lineGroup
      ∧ (s.fresh + 1) ∉ (deleteLine g (createLine g s eId).1 eId).1.layersMap
      ∧ (assocFind s.fresh (deleteLine g (createLine g s eId).1 eId).1.lineObjs).bind
          (fun ob => ob.layer) = none
      ∧ assocFind eId (deleteLine g (createLine g s eId).1 eId).1.lineRefs = none
      ∧ assocFind oId (deleteLine g (createLine g s eId).1 eId).1.lineRefs = none
      ∧ deleteLine g (deleteLine g (createLine g s eId).1 eId).1 oId
          = ((deleteLine g (createLine g s eId).1 eId).1, []))
    ∧ ((deleteLine g (createLine g s eId).1 oId).2 = [mapEv.deletedLine s.fresh]
      ∧ (s.fresh + 1) ∉ (deleteLine g (createLine g s eId).1 oId).1.lineGroup
      ∧ assocFind eId (deleteLine g (createLine g s eId).1 oId).1.lineRefs = none
      ∧ assocFind oId (deleteLine g (createLine g s eId).1 oId).1.lineRefs = none
      ∧ deleteLine g (deleteLine g (createLine g s eId).1 oId).1 eId
          = ((deleteLine g (createLine g s eId).1 oId).1, [])) := by
  have hs1 : (createLine g s eId).1
      = { s with fresh := s.fresh + 2, lineRefs := assocSet oId s.fresh (assocSet eId s.fresh s.lineRefs), lineObjs := assocSet s.fresh { edge := eId, layer := some (s.fresh + 1) } s.lineObjs, layersMap := (s.fresh + 1) :: s.layersMap, lineGroup := if bothEndpointsVisible s e then (s.fresh + 1) :: s.lineGroup else s.lineGroup } := by
    simp [createLine, hle, hE, het, heo]
  have hrefE : assocFind eId (createLine g s eId).1.lineRefs = some s.fresh := by
    rw [hs1]
    simp only
    rw [assocFind_set_ne _ _ hne, assocFind_set_self]
  have hrefO : assocFind oId (createLine g s eId).1.lineRefs = some s.fresh := by
    rw [hs1]
    simp only
    rw [assocFind_set_self]
  have hobj : assocFind s.fresh (createLine g s eId).1.lineObjs
      = some { edge := eId, layer := some (s.fresh + 1) } := by
    rw [hs1]
    simp only
    rw [assocFind_set_self]
  have hd1 : deleteLine g (createLine g s eId).1 eId
      = ({ (createLine g s eId).1 with lineRefs := assocErase oId (assocErase eId (createLine g s eId).1.lineRefs), lineObjs := assocSet s.fresh { edge := eId, layer := none } (createLine g s eId).1.lineObjs, layersMap := (createLine g s eId).1.layersMap.filter (fun x => decide (x ≠ s.fresh + 1)), lineGroup := (createLine g s eId).1.lineGroup.filter (fun x => decide (x ≠ s.fresh + 1)) },
         [mapEv.deletedLine s.fresh]) := by
    simp only [deleteLine, hrefE, hobj, hE, heo, Option.some_bind]
  have hd2 : deleteLine g (createLine g s eId).1 oId
      = ({ (createLine g s eId).1 with lineRefs := assocErase eId (assocErase oId (createLine g s eId).1.lineRefs), lineObjs := assocSet s.fresh { edge := eId, layer := none } (createLine g s eId).1.lineObjs, layersMap := (createLine g s eId).1.layersMap.filter (fun x => decide (x ≠ s.fresh + 1)), lineGroup := (createLine g s eId).1.lineGroup.filter (fun x => decide (x ≠ s.fresh + 1)) },
         [mapEv.deletedLine s.fresh]) := by
    simp only [deleteLine, hrefO, hobj, hO, hoe, Option.some_bind]
  have hrefE1 : assocFind eId (deleteLine g (createLine g s eId).1 eId).1.lineRefs
      = none := by
    rw [hd1]
    simp only
    rw [assocFind_erase_ne _ hne, assocFind_erase_self]
  have hrefO1 : assocFind oId (deleteLine g (createLine g s eId).1 eId).1.lineRefs
      = none := by
    rw [hd1]
    simp only
    rw [assocFind_erase_self]
  have hrefE2 : assocFind eId (deleteLine g (createLine g s eId).1 oId).1.lineRefs
      = none := by
    rw [hd2]
    simp only
    rw [assocFind_erase_self]
  have hrefO2 : assocFind oId (deleteLine g (createLine g s eId).1 oId).1.lineRefs
      = none := by
    rw [hd2]
    simp only
    rw [assocFind_erase_ne _ (Ne.symm hne), assocFind_erase_self]
  refine ⟨⟨hrefE, hrefO, ?_⟩, ⟨?_, ?_, ?_⟩, ⟨?_, ?_, ?_, ?_, hrefE1, hrefO1, ?_⟩,
    ⟨?_, ?_, hrefE2, hrefO2, ?_⟩⟩
  · simp [createLine, hle, hE, het]
  · simp [createLine, hlo, hO, hot, hoe, assocFind_set_self]
  · simp [createLine, hlo, hO, hot, hoe, assocFind_set_ne _ _ (Ne.symm hne),
      assocFind_set_self]
  · simp [createLine, hlo, hO, hot]
  · rw [hd1]
  · rw [hd1]
    simp [List.mem_filter]
  · rw [hd1]
    simp [List.mem_filter]
  · rw [hd1]
    simp only
    rw [assocFind_set_self]
    rfl
  · exact deleteLine_noop _ _ _ hrefO1
  · rw [hd2]
  · rw [hd2]
    simp [List.mem_filter]
  · exact deleteLine_noop _ _ _ hrefE2

theorem sharedLine_delete_once_witness :
    (assocFind "e" (createLine gBi sBi "e").1.lineRefs = some 2
      ∧ assocFind "f" (createLine gBi sBi "e").1.lineRefs = some 2)
    ∧ (deleteLine gBi (createLine gBi sBi "e").1 "e").2 = [mapEv.deletedLine 2]
    ∧ deleteLine gBi (deleteLine gBi (createLine gBi sBi "e").1 "e").1 "f"
        = ((deleteLine gBi (createLine gBi sBi "e").1 "e").1, []) := by
  have h := sharedLine_delete_once gBi sBi "e" "f"
    { id := "e", src := "u", dst := "v", typ := edgeType.route, opposite := some "f" }
    { id := "f", src := "v", dst := "u", typ := edgeType.route, opposite := some "e" }
    (by decide) (by decide) (by decide) (by decide) (by decide) (by decide)
    (by decide) (by decide) (by decide)
  exact ⟨⟨h.1.1, h.1.2.1⟩, h.2.2.1.1, h.2.2.1.2.2.2.2.2.2⟩


/-! ## Claim C7: line attachment and endpoint visibility -/

theorem remCond_congr {s s' : MapState} (h1 : s'.lineRefs = s.lineRefs)
    (h2 : s'.lineObjs = s.lineObjs) : remCond s' = remCond s := by
  funext e ly
  unfold remCond lineLayerOf
  rw [h1, h2]

theorem addCond_congr (g : Graph) {s s' : MapState}
    (h1 : s'.lineRefs = s.lineRefs) (h2 : s'.lineObjs = s.lineObjs)
    (h3 : s'.points = s.points) (h4 : s'.visible = s.visible) :
    addCond g s' = addCond g s := by
  funext e ly
  unfold addCond lineLayerOf endpointVisible
  rw [h1, h2, h3, h4]

theorem removeStep_fields (s : MapState) (e : String) :
    (removeStep s e).lineRefs = s.lineRefs ∧ (removeStep s e).lineObjs = s.lineObjs
    ∧ (removeStep s e).points = s.points ∧ (removeStep s e).visible = s.visible := by
  by_cases hg : (assocFind e s.lineRefs).isSome = true
  · rcases hly : lineLayerOf s e with _ | ly0
    · simp [removeStep, hg, hly]
    · simp [removeStep, hg, hly]
  · simp only [Bool.not_eq_true] at hg
    simp [removeStep, hg]

theorem addStep_fields (g : Graph) (s : MapState) (e : String) :
    (addStep g s e).lineRefs = s.lineRefs ∧ (addStep g s e).lineObjs = s.lineObjs
    ∧ (addStep g s e).points = s.points ∧ (addStep g s e).visible = s.visible := by
  rcases hE : assocFind e g.edges with _ | ed
  · simp [addStep, hE]
  · by_cases hg : ((assocFind e s.lineRefs).isSome && endpointVisible s ed.dst) = true
    · rcases hly : lineLayerOf s e with _ | ly0
      · simp [addStep, hE, hg, hly]
      · simp [addStep, hE, hg, hly]
    · simp only [Bool.not_eq_true] at hg
      simp [addStep, hE, hg]

theorem pointRemoveFold_eq (l : List String) : ∀ s : MapState,
    pointRemoveFold l s
      = { s with lineGroup :=
            s.lineGroup.filter (fun ly => !(l.any (fun e => remCond s e ly))) } := by
  induction l with
  | nil =>
    intro s
    simp [pointRemoveFold]
  | cons e rest ih =>
    intro s
    have hstep : pointRemoveFold (e :: rest) s = pointRemoveFold rest (removeStep s e) :=
      rfl
    obtain ⟨hf1, hf2, hf3, hf4⟩ := removeStep_fields s e
    rw [hstep, ih (removeStep s e), remCond_congr hf1 hf2]
    by_cases hg : (assocFind e s.lineRefs).isSome = true
    · rcases hly : lineLayerOf s e with _ | ly0
      · have hrs : removeStep s e = s := by simp [removeStep, hg, hly]
        rw [hrs]
        congr 1
        apply List.filter_congr
        intro x hx
        simp [remCond, hg, hly]
      · have hrs : removeStep s e
            = { s with lineGroup := s.lineGroup.filter (fun x => decide (x ≠ ly0)) } := by
          simp [removeStep, hg, hly]
        rw [hrs]
        simp only [List.filter_filter]
        congr 1
        apply List.filter_congr
        intro x hx
        simp only [remCond, hg, hly, Bool.true_and, List.any_cons, Bool.not_or]
        rw [Bool.and_comm]
        congr 1
        simp [eq_comm]
    · simp only [Bool.not_eq_true] at hg
      have hrs : removeStep s e = s := by simp [removeStep, hg]
      rw [hrs]
      congr 1
      apply List.filter_congr
      intro x hx
      simp [remCond, hg]

theorem pointAddFold_mem (g : Graph) (l : List String) : ∀ (s : MapState) (ly : Nat),
    ly ∈ (pointAddFold g l s).lineGroup
      ↔ (ly ∈ s.lineGroup ∨ (l.any (fun e => addCond g s e ly)) = true) := by
  induction l with
  | nil =>
    intro s ly
    simp [pointAddFold]
  | cons e rest ih =>
    intro s ly
    have hstep : pointAddFold g (e :: rest) s = pointAddFold g rest (addStep g s e) :=
      rfl
    obtain ⟨hf1, hf2, hf3, hf4⟩ := addStep_fields g s e
    rw [hstep, ih (addStep g s e), addCond_congr g hf1 hf2 hf3 hf4]
    rcases hE : assocFind e g.edges with _ | ed
    · have hrs : addStep g s e = s := by simp [addStep, hE]
      rw [hrs]
      simp [addCond, hE]
    · by_cases hg : ((assocFind e s.lineRefs).isSome && endpointVisible s ed.dst) = true
      · rcases hly : lineLayerOf s e with _ | ly0
        · have hrs : addStep g s e = s := by simp [addStep, hE, hg, hly]
          rw [hrs]
          simp [addCond, hE, hg, hly]
        · have hrs : addStep g s e
              = { s with lineGroup := if s.lineGroup.contains ly0 then s.lineGroup
                    else ly0 :: s.lineGroup } := by
            simp [addStep, hE, hg, hly]
          rw [hrs]
          simp only [Bool.and_eq_true] at hg
          have hiff : addCond g s e ly = true ↔ ly0 = ly := by
            simp [addCond, hE, hg.1, hg.2, hly]
          by_cases hc : s.lineGroup.contains ly0 = true
          · have hmem : ly0 ∈ s.lineGroup := by
              simpa using hc
            rw [if_pos hc]
            simp only [List.any_cons, Bool.or_eq_true, hiff]
            constructor
            · rintro (h | h)
              · exact Or.inl h
              · exact Or.inr (Or.inr h)
            · rintro (h | h | h)
              · exact Or.inl h
              · exact Or.inl (h ▸ hmem)
              · exact Or.inr h
          · rw [if_neg hc]
            simp only [List.any_cons, Bool.or_eq_true, hiff, List.mem_cons]
            constructor
            · rintro ((h | h) | h)
              · exact Or.inr (Or.inl h.symm)
              · exact Or.inl h
              · exact Or.inr (Or.inr h)
            · rintro (h | h | h)
              · exact Or.inl (Or.inr h)
              · exact Or.inl (Or.inl h.symm)
              · exact Or.inr h
      · simp only [Bool.not_eq_true] at hg
        have hrs : addStep g s e = s := by simp [addStep, hE, hg]
        rw [hrs]
        simp [addCond, hE, hg]

/-- Counterexample to claim C7 as stated: for the one-directional edge e from u to v,
with both endpoint points visible and the line attached, hiding v's point leaves the
line attached to the line container even though an endpoint is no longer visible (the
'remove' listener only walks the hidden vertex's outgoing edges). -/
theorem line_detach_counterexample :
    (3 ∈ (hidePoint gUni sUni "v").lineGroup)
    ∧ endpointVisible (hidePoint gUni sUni "v") "v" = false
    ∧ lineLayerOf (hidePoint gUni sUni "v") "e" = some 3 := by
  refine ⟨?_, by decide, by decide⟩
  decide


/-- Claim C7 (amended): after `createLine` an edge's line is attached to the shared
line container iff both endpoint points exist and are currently visible.  Showing a
point attaches the lines of that vertex's outgoing edges whose other endpoint is
visible, and hiding a point detaches the lines of that vertex's outgoing edges; for an
edge with a defined opposite (whose shared line both directions reference) hiding
either endpoint therefore detaches the shared line, while a one-directional edge's
line is only detached when its from-endpoint is hidden, not its to-endpoint. -/
theorem line_attachment_spec (g : Graph) (s : MapState) :
    (∀ eId e, assocFind eId g.edges = some e → e.typ ≠ edgeType.temporal →
        assocFind eId s.lineRefs = none → (s.fresh + 1) ∉ s.lineGroup →
        (((s.fresh + 1) ∈ (createLine g s eId).1.lineGroup)
          ↔ bothEndpointsVisible s e = true))
    ∧ (∀ vId v p eId ly, assocFind vId g.vertices = some v →
        assocFind vId s.points = some p → eId ∈ v.outgoing → remCond s eId ly = true →
        ly ∉ (hidePoint g s vId).lineGroup)
    ∧ (∀ uId vId u v eId oId ly,
        assocFind uId g.vertices = some u → assocFind vId g.vertices = some v →
        (assocFind uId s.points).isSome = true →
        (assocFind vId s.points).isSome = true →
        eId ∈ u.outgoing → oId ∈ v.outgoing →
        remCond s eId ly = true → remCond s oId ly = true →
        ly ∉ (hidePoint g s uId).lineGroup ∧ ly ∉ (hidePoint g s vId).lineGroup)
    ∧ (∀ vId v p eId e ly, assocFind vId g.vertices = some v →
        assocFind vId s.points = some p → eId ∈ v.outgoing →
        assocFind eId g.edges = some e → (assocFind eId s.lineRefs).isSome = true →
        lineLayerOf s eId = some ly → endpointVisible s e.dst = true →
        ly ∈ (showPoint g s vId).lineGroup) := by
  have hb : ∀ vId v p eId ly, assocFind vId g.vertices = some v →
      assocFind vId s.points = some p → eId ∈ v.outgoing → remCond s eId ly = true →
      ly ∉ (hidePoint g s vId).lineGroup := by
    intro vId v p eId ly hv hp hmem hrc
    have hh : hidePoint g s vId = pointRemoveFold v.outgoing
        { s with visible := s.visible.filter (fun x => decide (x ≠ p)) } := by
      simp [hidePoint, hp, hv]
    rw [hh, pointRemoveFold_eq]
    intro hcon
    simp only [List.mem_filter] at hcon
    have hany : ((v.outgoing).any fun e =>
        remCond { s with visible := s.visible.filter (fun x => decide (x ≠ p)) } e ly)
        = true := by
      rw [remCond_congr rfl rfl]
      exact List.any_eq_true.mpr ⟨eId, hmem, hrc⟩
    rw [hany] at hcon
    simp at hcon
  refine ⟨?_, hb, ?_, ?_⟩
  · intro eId e hE htyp href hfr
    have h1 : (createLine g s eId).1.lineGroup
        = if bothEndpointsVisible s e then (s.fresh + 1) :: s.lineGroup
          else s.lineGroup := by
      rcases ho : e.opposite with _ | o
      · simp [createLine, href, hE, htyp, ho]
      · simp [createLine, href, hE, htyp, ho]
    rw [h1]
    by_cases hvis : bothEndpointsVisible s e = true
    · rw [if_pos hvis]
      simp [hvis]
    · rw [if_neg hvis]
      simp only [Bool.not_eq_true] at hvis
      simp [hfr, hvis]
  · intro uId vId u v eId oId ly hu hv hup hvp hme hmo hrce hrco
    obtain ⟨pu, hpu⟩ := Option.isSome_iff_exists.mp hup
    obtain ⟨pv, hpv⟩ := Option.isSome_iff_exists.mp hvp
    exact ⟨hb uId u pu eId ly hu hpu hme hrce, hb vId v pv oId ly hv hpv hmo hrco⟩
  · intro vId v p eId e ly hv hp hmem hE href hly hvis
    have hshow : showPoint g s vId = pointAddFold g v.outgoing
        { s with visible := if s.visible.contains p then s.visible
            else p :: s.visible } := by
      simp [showPoint, hp, hv]
    rw [hshow, pointAddFold_mem]
    right
    refine List.any_eq_true.mpr ⟨eId, hmem, ?_⟩
    simp only [addCond, hE]
    rw [Bool.and_eq_true, Bool.and_eq_true]
    refine ⟨⟨href, ?_⟩, ?_⟩
    · simp only [endpointVisible] at hvis ⊢
      rcases hq : assocFind e.dst s.points with _ | q
      · rw [hq] at hvis
        cases hvis
      · rw [hq] at hvis
        change s.visible.contains q = true at hvis
        by_cases hcp : s.visible.contains p = true
        · rw [if_pos hcp]
          exact hvis
        · rw [if_neg hcp]
          simp only [List.contains_cons, hvis, Bool.or_true]
    · exact decide_eq_true hly

theorem line_attachment_spec_witness :
    remCond sBiLine "e" 3 = true ∧ remCond sBiLine "f" 3 = true
    ∧ 3 ∉ (hidePoint gBi sBiLine "u").lineGroup
    ∧ 3 ∉ (hidePoint gBi sBiLine "v").lineGroup := by
  have h := (line_attachment_spec gBi sBiLine).2.2.1 "u" "v"
    { id := "u", spatialGroup := "G", outgoing := ["e"] }
    { id := "v", spatialGroup := "G", outgoing := ["f"] }
    "e" "f" 3 (by decide) (by decide) (by decide) (by decide) (by decide) (by decide)
    (by decide) (by decide)
  exact ⟨by decide, by decide, h.1, h.2⟩


/-! ## Claim C1: timeline aggregation -/

theorem processArray_eq_flushRun : processArray = flushRun := by
  funext r
  match r with
  | [] => simp [processArray, flushRun]
  | [a] => simp [processArray, flushRun]
  | [a, b] => simp [processArray, flushRun]
  | a :: b :: c :: rest =>
    show [timelineItem.range (rangeItem.ofItems (a :: b :: c :: rest))] = _
    have hlen : 3 ≤ (a :: b :: c :: rest).length := by
      simp [List.length_cons]
    simp [flushRun, hlen]

theorem lastStartOf_cons (t : Time) (x : item) (xs : List item) :
    lastStartOf t (x :: xs) = lastStartOf x.start xs := by
  cases xs with
  | nil => simp [lastStartOf]
  | cons y ys =>
    unfold lastStartOf
    rw [List.getLast?_cons_cons]
    rcases h : (y :: ys).getLast? with _ | j
    · exact absurd h (by simp)
    · rfl

theorem refreshWalk_run (crit : Time) (xs : List item) : ∀ (acc : List item) (t : Time),
    startsChainLt crit t xs = true →
    refreshWalk crit xs acc (some t) = processArray (acc ++ xs) := by
  induction xs with
  | nil =>
    intro acc t h
    simp [refreshWalk]
  | cons x rest ih =>
    intro acc t h
    simp only [startsChainLt, Bool.and_eq_true, decide_eq_true_eq] at h
    show (if x.start - t < crit then refreshWalk crit rest (acc ++ [x]) (some x.start)
        else processArray acc ++ refreshWalk crit rest [x] (some x.start)) = _
    rw [if_pos h.1, ih (acc ++ [x]) x.start h.2, List.append_assoc]
    rfl

theorem refreshWalk_append (crit : Time) (runs : List (List item)) :
    ∀ (xs acc : List item) (t : Time),
      startsChainLt crit t xs = true →
      runsSeparated crit (lastStartOf t xs) runs = true →
      refreshWalk crit (xs ++ runs.flatMap (fun r => r)) acc (some t)
        = processArray (acc ++ xs) ++ runs.flatMap processArray := by
  induction runs with
  | nil =>
    intro xs acc t h1 h2
    simp only [List.flatMap_nil, List.append_nil]
    exact refreshWalk_run crit xs acc t h1
  | cons r rest ih =>
    intro xs
    induction xs with
    | nil =>
      intro acc t h1 h2
      cases r with
      | nil => simp [runsSeparated, lastStartOf] at h2
      | cons i is =>
        simp only [lastStartOf, List.getLast?_nil] at h2
        simp only [runsSeparated, Bool.and_eq_true, decide_eq_true_eq] at h2
        obtain ⟨⟨hge, hchain⟩, hsep⟩ := h2
        have hnlt : ¬ (i.start - t < crit) := not_lt.mpr hge
        have hstep : refreshWalk crit ([] ++ ((i :: is) :: rest).flatMap (fun r => r))
            acc (some t)
            = processArray acc
              ++ refreshWalk crit (is ++ rest.flatMap (fun r => r)) [i] (some i.start) := by
          show (if i.start - t < crit then _ else _) = _
          rw [if_neg hnlt]
          rfl
        rw [hstep, ih is [i] i.start hchain hsep]
        simp [List.append_assoc]
    | cons x xs ihx =>
      intro acc t h1 h2
      simp only [startsChainLt, Bool.and_eq_true, decide_eq_true_eq] at h1
      rw [lastStartOf_cons] at h2
      have hstep : refreshWalk crit ((x :: xs) ++ ((r :: rest).flatMap (fun r => r)))
          acc (some t)
          = refreshWalk crit (xs ++ ((r :: rest).flatMap (fun r => r))) (acc ++ [x])
              (some x.start) := by
        show (if x.start - t < crit then _ else _) = _
        rw [if_pos h1.1]
        rfl
      rw [hstep, ihx (acc ++ [x]) x.start h1.2 h2, List.append_assoc]
      rfl

/-- Claim C1: the aggregation loop flushes every maximal run whose consecutive
start-time gaps are all below criticalDuration as-is when its size is one or two and
collapses it into a single RangeItem (spanning first to last) when its size is three
or more; on the concrete row with starts 0, 1, 2, 100, 101 and criticalDuration 5 one
aggregated refresh pass emits exactly one RangeItem for the run 0, 1, 2 and the items
at 100 and 101 unchanged. -/
theorem timeline_aggregation_runs (crit : Time) (runs : List (List item))
    (h : runsValid crit runs = true) :
    refreshWalk crit (runs.flatMap (fun r => r)) [] none = runs.flatMap flushRun
    ∧ aggregateItems exModel exTLState 5
        = [timelineItem.range (rangeItem.ofItems [exI0, exI1, exI2]),
           timelineItem.single exI100, timelineItem.single exI101] := by
  constructor
  · cases runs with
    | nil => simp [refreshWalk, processArray]
    | cons r rest =>
      cases r with
      | nil => simp [runsValid] at h
      | cons i is =>
        simp only [runsValid, Bool.and_eq_true] at h
        have hjoin : ((i :: is) :: rest).flatMap (fun r => r)
            = i :: (is ++ rest.flatMap (fun r => r)) := by
          simp
        rw [hjoin]
        have hstep : refreshWalk crit (i :: (is ++ rest.flatMap (fun r => r))) [] none
            = refreshWalk crit (is ++ rest.flatMap (fun r => r)) [i] (some i.start) :=
          rfl
        rw [hstep, refreshWalk_append crit rest is [i] i.start h.1 h.2,
          processArray_eq_flushRun]
        simp
  · decide

theorem timeline_aggregation_runs_witness :
    runsValid 5 exRuns = true
    ∧ refreshWalk 5 (exRuns.flatMap (fun r => r)) [] none = exRuns.flatMap flushRun :=
  ⟨by decide, (timeline_aggregation_runs 5 exRuns (by decide)).1⟩


/-! ## Claim C3: exclusive selection in non-multiselect groups -/

theorem assocErase_eq_filter {α β : Type} [DecidableEq α] (k : α) (l : List (α × β)) :
    assocErase k l = l.filter (fun p => decide (p.1 ≠ k)) := by
  induction l with
  | nil => rfl
  | cons p rest ih =>
    obtain ⟨a, b⟩ := p
    by_cases h : a = k <;> simp [assocErase, h, ih]

theorem assocSet_of_not_mem {α β : Type} [DecidableEq α] (k : α) (v : β)
    (l : List (α × β)) (h : assocFind k l = none) : assocSet k v l = l ++ [(k, v)] := by
  induction l with
  | nil => rfl
  | cons p rest ih =>
    obtain ⟨a, b⟩ := p
    by_cases hp : a = k
    · simp [assocFind, hp] at h
    · simp only [assocFind, if_neg hp] at h
      simp [assocSet, hp, ih h]

theorem assocFind_none_filter {α β : Type} [DecidableEq α] (k : α)
    (q : α × β → Bool) (l : List (α × β)) (h : assocFind k l = none) :
    assocFind k (l.filter q) = none := by
  induction l with
  | nil => simp [assocFind]
  | cons p rest ih =>
    obtain ⟨a, b⟩ := p
    by_cases hp : a = k
    · simp [assocFind, hp] at h
    · simp only [assocFind, if_neg hp] at h
      by_cases hq : q (a, b) = true
      · simp [List.filter_cons, hq, assocFind, hp, ih h]
      · simp only [Bool.not_eq_true] at hq
        simp [List.filter_cons, hq, ih h]

theorem deselectSiblings_spec (items : List (String × item)) (hwf : itemsWF items) :
    ∀ (cs : List String) (sel : List (String × item)), cs.Nodup →
      deselectSiblings items cs sel
        = (sel.filter (fun p => decide (p.1 ∉ deselIds items sel cs)),
           (deselIds items sel cs).map TlEv.deselect) := by
  intro cs
  induction cs with
  | nil =>
    intro sel hnd
    simp [deselectSiblings, deselIds]
  | cons c cs ih =>
    intro sel hnd
    obtain ⟨hc, hnd2⟩ := List.nodup_cons.mp hnd
    rcases hit : assocFind c items with _ | it
    · have hstep : deselectSiblings items (c :: cs) sel
          = deselectSiblings items cs sel := by
        simp [deselectSiblings, hit]
      have hdid : deselIds items sel (c :: cs) = deselIds items sel cs := by
        simp [deselIds, hit]
      rw [hstep, ih sel hnd2, hdid]
    · have hid : it.id = c := hwf (c, it) (assocFind_mem hit)
      rcases hsel : assocFind c sel with _ | sv
      · have hstep : deselectSiblings items (c :: cs) sel
            = deselectSiblings items cs sel := by
          simp [deselectSiblings, hit, hid, hsel]
        have hdid : deselIds items sel (c :: cs) = deselIds items sel cs := by
          simp [deselIds, hit, hsel]
        rw [hstep, ih sel hnd2, hdid]
      · have hstep : deselectSiblings items (c :: cs) sel
            = ((deselectSiblings items cs (assocErase c sel)).1,
               TlEv.deselect c :: (deselectSiblings items cs (assocErase c sel)).2) := by
          simp [deselectSiblings, hit, hid, hsel]
        rw [hstep, ih (assocErase c sel) hnd2]
        have hdid : deselIds items (assocErase c sel) cs = deselIds items sel cs := by
          unfold deselIds
          apply List.filter_congr
          intro x hx
          have hxc : x ≠ c := fun hh => hc (hh ▸ hx)
          rw [assocFind_erase_ne _ hxc]
        have hhead : deselIds items sel (c :: cs) = c :: deselIds items sel cs := by
          simp [deselIds, hit, hsel]
        rw [hdid, hhead]
        simp only [Prod.mk.injEq, List.map_cons, and_true]
        rw [assocErase_eq_filter, List.filter_filter]
        apply List.filter_congr
        intro x hx
        simp [List.mem_cons, not_or, Bool.and_comm, beq_eq_decide]

/-- Claim C3: selecting (via toggleSelection) an unselected item whose owning spatial
group has a parent and is non-multiselect first deselects every other currently
selected sibling item under the same immediate parent group, emitting DESELECT for
each (in the parent's child order), then selects the target item emitting SELECT;
selected items whose groups lie outside that parent survive untouched, so selecting A
then B in a non-multiselect group leaves only B selected, with events DESELECT(A),
SELECT(B). -/
theorem toggleSelection_nonmultiselect_exclusive
    (m : Model) (s : TLState) (i : item) (sg : spatialGroupM) (tgId : String)
    (tg : temporalGroupM)
    (hwf : itemsWF s.items)
    (hns : assocFind i.id s.selections = none)
    (hsg : assocFind i.spatialGroup m.sgs = some sg)
    (hsup : sg.superGroup = some tgId)
    (hmul : sg.multiselect = false)
    (htg : assocFind tgId m.tgs = some tg)
    (hnd : tg.children.Nodup) :
    (toggleSelection m s (some i) (some true)).1.selections
        = s.selections.filter
            (fun p => decide (p.1 ∉ deselIds s.items s.selections tg.children))
          ++ [(i.id, i)]
    ∧ (toggleSelection m s (some i) (some true)).1.items = s.items
    ∧ (toggleSelection m s (some i) (some true)).2
        = (deselIds s.items s.selections tg.children).map TlEv.deselect
          ++ [TlEv.select i.id]
    ∧ (∀ p ∈ s.selections, p.1 ∉ tg.children →
        p ∈ (toggleSelection m s (some i) (some true)).1.selections) := by
  have hsel : isSelected s i = false := by
    simp [isSelected, hns]
  have heq : toggleSelection m s (some i) (some true)
      = ({ s with selections :=
            assocSet i.id i (deselectSiblings s.items tg.children s.selections).1 },
         (deselectSiblings s.items tg.children s.selections).2
           ++ [TlEv.select i.id]) := by
    simp [toggleSelection, hsel, hsg, hsup, hmul, htg]
  rw [deselectSiblings_spec s.items hwf tg.children s.selections hnd] at heq
  have hset : assocSet i.id i
      (s.selections.filter
        (fun p => decide (p.1 ∉ deselIds s.items s.selections tg.children)))
      = s.selections.filter
          (fun p => decide (p.1 ∉ deselIds s.items s.selections tg.children))
        ++ [(i.id, i)] :=
    assocSet_of_not_mem _ _ _ (assocFind_none_filter _ _ _ hns)
  rw [hset] at heq
  refine ⟨?_, ?_, ?_, fun p hp hout => ?_⟩
  · rw [heq]
  · rw [heq]
  · rw [heq]
  · rw [heq]
    simp only [List.mem_append]
    left
    rw [List.mem_filter]
    refine ⟨hp, ?_⟩
    simp only [decide_eq_true_eq]
    intro hmem
    exact hout (List.mem_of_mem_filter hmem)

theorem toggleSelection_exclusive_witness :
    assocFind "B" sSel.selections = none
    ∧ (toggleSelection mNM sSel (some itB) (some true)).1.selections = [("B", itB)]
    ∧ (toggleSelection mNM sSel (some itB) (some true)).2
        = [TlEv.deselect "A", TlEv.select "B"] := by
  have h := toggleSelection_nonmultiselect_exclusive mNM sSel itB (sgNM "B") "T"
      { id := "T", children := ["A", "B", "C"] } (by decide) (by decide) (by decide)
      (by decide) (by decide) (by decide) (by decide)
  refine ⟨by decide, ?_, ?_⟩
  · rw [h.1]
    decide
  · rw [h.2.2.1]
    decide


/-! ## Claim C4: external selection synchronization -/

theorem dedupFirstAux_mem (x : String) : ∀ (l seen : List String),
    x ∈ dedupFirstAux seen l ↔ (x ∈ l ∧ x ∉ seen) := by
  intro l
  induction l with
  | nil => intro seen; simp [dedupFirstAux]
  | cons y ys ih =>
    intro seen
    by_cases h : seen.contains y = true
    · have hy : y ∈ seen := by simpa using h
      rw [show dedupFirstAux seen (y :: ys) = dedupFirstAux seen ys from by
        unfold dedupFirstAux
        rw [if_pos h]
        cases ys <;> rfl]
      rw [ih seen]
      simp only [List.mem_cons]
      constructor
      · rintro ⟨hm, hn⟩
        exact ⟨Or.inr hm, hn⟩
      · rintro ⟨hm | hm, hn⟩
        · exact absurd (hm ▸ hy) hn
        · exact ⟨hm, hn⟩
    · have hy : y ∉ seen := by simpa using h
      rw [show dedupFirstAux seen (y :: ys) = y :: dedupFirstAux (y :: seen) ys from by
        unfold dedupFirstAux
        rw [if_neg h]
        cases ys <;> rfl]
      simp only [List.mem_cons, ih (y :: seen)]
      constructor
      · rintro (hm | ⟨hm, hn⟩)
        · subst hm
          exact ⟨Or.inl rfl, hy⟩
        · exact ⟨Or.inr hm, fun hs => hn (Or.inr hs)⟩
      · rintro ⟨hm | hm, hn⟩
        · exact Or.inl hm
        · by_cases hxy : x = y
          · exact Or.inl hxy
          · exact Or.inr ⟨hm, fun hs => hs.elim hxy hn⟩

theorem dedupFirstAux_nodup : ∀ (l seen : List String),
    (dedupFirstAux seen l).Nodup := by
  intro l
  induction l with
  | nil => intro seen; simp [dedupFirstAux]
  | cons y ys ih =>
    intro seen
    by_cases h : seen.contains y = true
    · rw [show dedupFirstAux seen (y :: ys) = dedupFirstAux seen ys from by
        unfold dedupFirstAux
        rw [if_pos h]
        cases ys <;> rfl]
      exact ih seen
    · rw [show dedupFirstAux seen (y :: ys) = y :: dedupFirstAux (y :: seen) ys from by
        unfold dedupFirstAux
        rw [if_neg h]
        cases ys <;> rfl]
      refine List.nodup_cons.mpr ⟨?_, ih (y :: seen)⟩
      rw [dedupFirstAux_mem]
      rintro ⟨hm, hn⟩
      exact hn (List.mem_cons_self _ _)

theorem dedupFirst_mem (x : String) (l : List String) : x ∈ dedupFirst l ↔ x ∈ l := by
  unfold dedupFirst
  rw [dedupFirstAux_mem]
  simp

theorem dedupFirst_nodup (l : List String) : (dedupFirst l).Nodup :=
  dedupFirstAux_nodup l []

theorem assocFind_append {α β : Type} [DecidableEq α] (k : α) (l1 l2 : List (α × β)) :
    assocFind k (l1 ++ l2)
      = match assocFind k l1 with
        | some v => some v
        | none => assocFind k l2 := by
  induction l1 with
  | nil => simp [assocFind]
  | cons p rest ih =>
    obtain ⟨a, b⟩ := p
    by_cases h : a = k <;> simp [assocFind, h, ih]

theorem assocFind_of_mem_nodup {β : Type} {l : List (String × β)}
    (hnd : (l.map Prod.fst).Nodup) {p : String × β} (hp : p ∈ l) :
    assocFind p.1 l = some p.2 := by
  induction l with
  | nil => cases hp
  | cons q rest ih =>
    obtain ⟨a, b⟩ := q
    rcases List.mem_cons.mp hp with heq | hm
    · subst heq
      simp [assocFind]
    · have hnd2 := (List.nodup_cons.mp hnd).2
      have hane : a ≠ p.1 := by
        intro hh
        exact (List.nodup_cons.mp hnd).1 (hh ▸ List.mem_map.mpr ⟨p, hm, rfl⟩)
      simp [assocFind, hane, ih hnd2 hm]

theorem assocFind_filter_key {β : Type} (f : String → Bool) (k : String)
    (l : List (String × β)) :
    assocFind k (l.filter (fun p => f p.1))
      = if f k = true then assocFind k l else none := by
  induction l with
  | nil => simp [assocFind]
  | cons p rest ih =>
    obtain ⟨a, b⟩ := p
    by_cases h : a = k
    · subst h
      by_cases hf : f a = true
      · simp [List.filter_cons, hf, assocFind, ih]
      · simp only [Bool.not_eq_true] at hf
        simp [List.filter_cons, hf, assocFind, ih]
    · by_cases hf : f a = true
      · simp [List.filter_cons, hf, assocFind, h, ih]
      · simp only [Bool.not_eq_true] at hf
        simp [List.filter_cons, hf, assocFind, h, ih]

theorem assocFind_phase2Adds_isSome (items sel : List (String × item))
    (ids : List String) (k : String) :
    (assocFind k (phase2Adds items sel ids)).isSome
      = (ids.contains k && (assocFind k items).isSome
          && !((assocFind k sel).isSome)) := by
  induction ids with
  | nil => simp [phase2Adds, assocFind]
  | cons id rest ih =>
    by_cases hk : id = k
    · subst hk
      rcases hi : assocFind id items with _ | it
      · rw [show phase2Adds items sel (id :: rest) = phase2Adds items sel rest from by
          simp [phase2Adds, List.filterMap_cons, hi]]
        rw [ih]
        simp [hi]
      · by_cases hs : (assocFind id sel).isSome = true
        · rw [show phase2Adds items sel (id :: rest) = phase2Adds items sel rest from by
            simp [phase2Adds, List.filterMap_cons, hi, hs]]
          rw [ih]
          simp [hs]
        · simp only [Bool.not_eq_true] at hs
          rw [show phase2Adds items sel (id :: rest)
              = (id, it) :: phase2Adds items sel rest from by
            simp [phase2Adds, List.filterMap_cons, hi, hs]]
          simp [assocFind, List.contains_cons, hi, hs]
    · have hbeq : (k == id) = false := by
        simp [Ne.symm hk]
      have hcont : (id :: rest).contains k = rest.contains k := by
        simp only [List.contains_cons, hbeq, Bool.false_or]
      rcases hi : assocFind id items with _ | it
      · rw [show phase2Adds items sel (id :: rest) = phase2Adds items sel rest from by
          simp [phase2Adds, List.filterMap_cons, hi]]
        rw [ih, hcont]
      · by_cases hs : (assocFind id sel).isSome = true
        · rw [show phase2Adds items sel (id :: rest) = phase2Adds items sel rest from by
            simp [phase2Adds, List.filterMap_cons, hi, hs]]
          rw [ih, hcont]
        · simp only [Bool.not_eq_true] at hs
          rw [show phase2Adds items sel (id :: rest)
              = (id, it) :: phase2Adds items sel rest from by
            simp [phase2Adds, List.filterMap_cons, hi, hs]]
          rw [show assocFind k ((id, it) :: phase2Adds items sel rest)
              = assocFind k (phase2Adds items sel rest) from by
            simp [assocFind, hk]]
          rw [ih, hcont]

theorem phase2Adds_congr (items : List (String × item)) :
    ∀ (ids : List String) (sel sel2 : List (String × item)),
      (∀ id ∈ ids, (assocFind id sel2).isSome = (assocFind id sel).isSome) →
      phase2Adds items sel2 ids = phase2Adds items sel ids := by
  intro ids
  induction ids with
  | nil => intro sel sel2 h; rfl
  | cons id rest ih =>
    intro sel sel2 h
    have hid := h id (List.mem_cons_self _ _)
    have hrest : ∀ x ∈ rest, (assocFind x sel2).isSome = (assocFind x sel).isSome :=
      fun x hx => h x (List.mem_cons_of_mem _ hx)
    have ihr := ih sel sel2 hrest
    rcases hi : assocFind id items with _ | it
    · simp [phase2Adds, List.filterMap_cons, hi] at ihr ⊢
      exact ihr
    · simp only [phase2Adds, List.filterMap_cons, hi, hid] at ihr ⊢
      by_cases hs : (assocFind id sel).isSome = true
      · simp [hs] at ihr ⊢
        exact ihr
      · simp only [Bool.not_eq_true] at hs
        simp [hs] at ihr ⊢
        exact ihr


theorem contains_iff_memS (l : List String) (x : String) :
    l.contains x = true ↔ x ∈ l := by
  induction l with
  | nil => simp
  | cons y ys ih => simp [List.contains_cons, ih]

theorem selectionsPhase1_spec (m : Model) (val : List String) :
    ∀ (entries : List (String × item)) (st : TLState) (acc : List TlEv),
      (∀ p ∈ entries, assocFind p.2.id st.selections = some p.2) →
      (entries.map (fun p => p.2.id)).Nodup →
      selectionsPhase1 m val entries (st, acc)
        = ({ st with selections := st.selections.filter (fun q => decide (q.1 ∉ (entries.filter (fun p => !(val.contains p.2.id))).map (fun p => p.2.id))) }, acc ++ (entries.filter (fun p => !(val.contains p.2.id))).map (fun p => TlEv.deselect p.2.id)) := by
  intro entries
  induction entries with
  | nil =>
    intro st acc hall hnd
    simp [selectionsPhase1]
  | cons p rest ih =>
    intro st acc hall hnd
    have hin := hall p (List.mem_cons_self _ _)
    have hallr : ∀ q ∈ rest, assocFind q.2.id st.selections = some q.2 :=
      fun q hq => hall q (List.mem_cons_of_mem _ hq)
    rw [List.map_cons] at hnd
    obtain ⟨hhead, hnd2⟩ := List.nodup_cons.mp hnd
    by_cases hv : val.contains p.2.id = true
    · have hvm : p.2.id ∈ val := (contains_iff_memS val p.2.id).mp hv
      have hstep : selectionsPhase1 m val (p :: rest) (st, acc)
          = selectionsPhase1 m val rest (st, acc) := by
        simp [selectionsPhase1, hvm]
      rw [hstep, ih st acc hallr hnd2]
      have hfe : (p :: rest).filter (fun q => !(val.contains q.2.id))
          = rest.filter (fun q => !(val.contains q.2.id)) := by
        simp [List.filter_cons, hv, hvm]
      rw [hfe]
    · simp only [Bool.not_eq_true] at hv
      have hvm : p.2.id ∉ val := fun hmem => by
        rw [(contains_iff_memS val p.2.id).mpr hmem] at hv
        cases hv
      have htog : toggleSelection m st (some p.2) (some false)
          = ({ st with selections := assocErase p.2.id st.selections },
             [TlEv.deselect p.2.id]) := by
        simp [toggleSelection, hin]
      have hstep : selectionsPhase1 m val (p :: rest) (st, acc)
          = selectionsPhase1 m val rest
              ({ st with selections := assocErase p.2.id st.selections },
               acc ++ [TlEv.deselect p.2.id]) := by
        simp [selectionsPhase1, hvm, htog]
      have hallr2 : ∀ q ∈ rest,
          assocFind q.2.id (assocErase p.2.id st.selections) = some q.2 := by
        intro q hq
        have hne : q.2.id ≠ p.2.id := by
          intro hh
          exact hhead (hh ▸ List.mem_map.mpr ⟨q, hq, rfl⟩)
        rw [assocFind_erase_ne _ hne]
        exact hallr q hq
      rw [hstep, ih _ (acc ++ [TlEv.deselect p.2.id]) hallr2 hnd2]
      have hfe : (p :: rest).filter (fun q => !(val.contains q.2.id))
          = p :: rest.filter (fun q => !(val.contains q.2.id)) := by
        simp [List.filter_cons, hv, hvm]
      rw [hfe]
      simp only [Prod.mk.injEq, TLState.mk.injEq, List.map_cons]
      refine ⟨⟨by trivial, by trivial, ?_, by trivial, by trivial, by trivial⟩, ?_⟩
      · rw [assocErase_eq_filter, List.filter_filter]
        apply List.filter_congr
        intro x hx
        by_cases h1 : x.1 = p.2.id <;>
          by_cases h2 : x.1 ∈ List.map (fun q => q.2.id)
            (List.filter (fun q => !val.contains q.2.id) rest) <;>
          simp [h1, h2, List.mem_cons]
      · simp [List.append_assoc]

theorem selectionsPhase2_spec (m : Model) :
    ∀ (ids : List String) (st : TLState) (acc : List TlEv),
      ids.Nodup →
      itemsWF st.items →
      (st.items.all (fun p => match assocFind p.2.spatialGroup m.sgs with
        | some sg => sg.superGroup.isNone || sg.multiselect
        | none => true)) = true →
      selectionsPhase2 m ids (st, acc)
        = ({ st with selections := st.selections ++ phase2Adds st.items st.selections ids }, acc ++ (phase2Adds st.items st.selections ids).map (fun q => TlEv.select q.1)) := by
  intro ids
  induction ids with
  | nil =>
    intro st acc hnd hwf hms
    simp [selectionsPhase2, phase2Adds]
  | cons id rest ih =>
    intro st acc hnd hwf hms
    obtain ⟨hhead, hnd2⟩ := List.nodup_cons.mp hnd
    rcases hi : assocFind id st.items with _ | it
    · have hstep : selectionsPhase2 m (id :: rest) (st, acc)
          = selectionsPhase2 m rest (st, acc) := by
        simp [selectionsPhase2, hi, toggleSelection]
      have hadds : phase2Adds st.items st.selections (id :: rest)
          = phase2Adds st.items st.selections rest := by
        simp [phase2Adds, List.filterMap_cons, hi]
      rw [hstep, ih st acc hnd2 hwf hms, hadds]
    · have hid : it.id = id := hwf (id, it) (assocFind_mem hi)
      by_cases hs : (assocFind id st.selections).isSome = true
      · have htog : toggleSelection m st (some it) (some true) = (st, []) := by
          simp [toggleSelection, isSelected, hid, hs]
        have hstep : selectionsPhase2 m (id :: rest) (st, acc)
            = selectionsPhase2 m rest (st, acc) := by
          simp [selectionsPhase2, hi, htog]
        have hadds : phase2Adds st.items st.selections (id :: rest)
            = phase2Adds st.items st.selections rest := by
          simp [phase2Adds, List.filterMap_cons, hi, hs]
        rw [hstep, ih st acc hnd2 hwf hms, hadds]
      · simp only [Bool.not_eq_true] at hs
        have hnsel : isSelected st it = false := by
          simp [isSelected, hid, hs]
        have hmsp := List.all_eq_true.mp hms (id, it) (assocFind_mem hi)
        have htog : toggleSelection m st (some it) (some true)
            = ({ st with selections := assocSet it.id it st.selections },
               [TlEv.select it.id]) := by
          rcases hg : assocFind it.spatialGroup m.sgs with _ | sg
          · simp [toggleSelection, hnsel, hg]
          · simp only [hg] at hmsp
            rcases hsup : sg.superGroup with _ | tgId
            · simp [toggleSelection, hnsel, hg, hsup]
            · have hmul : sg.multiselect = true := by
                rw [hsup] at hmsp
                simpa using hmsp
              simp [toggleSelection, hnsel, hg, hsup, hmul]
        have hset : assocSet id it st.selections = st.selections ++ [(id, it)] := by
          refine assocSet_of_not_mem _ _ _ ?_
          rcases hfind : assocFind id st.selections with _ | v
          · rfl
          · rw [hfind] at hs
            cases hs
        have hstep : selectionsPhase2 m (id :: rest) (st, acc)
            = selectionsPhase2 m rest
                ({ st with selections := st.selections ++ [(id, it)] },
                 acc ++ [TlEv.select id]) := by
          simp [selectionsPhase2, hi, htog, hid, hset]
        rw [hstep]
        rw [ih { st with selections := st.selections ++ [(id, it)] } (acc ++ [TlEv.select id]) hnd2 hwf hms]
        dsimp only
        have hcong : phase2Adds st.items (st.selections ++ [(id, it)]) rest
            = phase2Adds st.items st.selections rest := by
          apply phase2Adds_congr
          intro x hx
          have hne : x ≠ id := fun hh => hhead (hh ▸ hx)
          rw [assocFind_append]
          rcases hfx : assocFind x st.selections with _ | v
          · simp [assocFind, Ne.symm hne]
          · simp
        have hadds : phase2Adds st.items st.selections (id :: rest)
            = (id, it) :: phase2Adds st.items st.selections rest := by
          simp [phase2Adds, List.filterMap_cons, hi, hs]
        rw [hcong, hadds]
        simp only [Prod.mk.injEq, TLState.mk.injEq]
        refine ⟨⟨by trivial, by trivial, ?_, by trivial, by trivial, by trivial⟩, ?_⟩
        · simp [List.append_assoc]
        · simp [List.append_assoc]

/-- Counterexample to claim C4 as stated: pushing the set of ids A, B of one
non-multiselect group onto an empty selection first selects A, then selecting B
deselects A again through the exclusive-selection cascade — so an id of the pushed
set ends up deselected, an extra DESELECT is emitted, and the resulting selection
(only B) differs from the pushed set restricted to existing items. -/
theorem selectionsPush_counterexample :
    (selectionsPush mNM sNone ["A", "B"]).1.selections = [("B", itB)]
    ∧ (selectionsPush mNM sNone ["A", "B"]).2
        = [TlEv.select "A", TlEv.deselect "A", TlEv.select "B"]
    ∧ (assocFind "A" sNone.items).isSome = true
    ∧ assocFind "A" (selectionsPush mNM sNone ["A", "B"]).1.selections = none :=
  ⟨by decide, by decide, by decide, by decide⟩

/-- Claim C4 (amended): when every stored item's spatial group is multiselect or has
no super group (so no exclusive-selection cascade fires), pushing an id set `val`
into the selections subscription first deselects exactly the currently selected
items whose id is missing from `val` (one DESELECT each, in selection order), then
selects exactly the deduplicated pushed ids that resolve to an item and are not
already selected (one SELECT each, in push order); afterwards an id is selected iff
it has an item and is in `val`. -/
theorem selectionsPush_delta (m : Model) (s : TLState) (val : List String)
    (hiwf : itemsWF s.items)
    (hswf : itemsWF s.selections)
    (hnd : (s.selections.map Prod.fst).Nodup)
    (hsub : ∀ p ∈ s.selections, (assocFind p.1 s.items).isSome = true)
    (hms : (s.items.all (fun p => match assocFind p.2.spatialGroup m.sgs with
      | some sg => sg.superGroup.isNone || sg.multiselect
      | none => true)) = true) :
    ((selectionsPush m s val).1.selections
        = s.selections.filter (fun q => val.contains q.2.id)
          ++ phase2Adds s.items (s.selections.filter (fun q => val.contains q.2.id)) (dedupFirst val))
    ∧ ((selectionsPush m s val).2
        = (s.selections.filter (fun p => !(val.contains p.2.id))).map (fun p => TlEv.deselect p.2.id)
          ++ (phase2Adds s.items (s.selections.filter (fun q => val.contains q.2.id)) (dedupFirst val)).map (fun q => TlEv.select q.1))
    ∧ (∀ id : String, (assocFind id (selectionsPush m s val).1.selections).isSome
        = ((assocFind id s.items).isSome && val.contains id)) := by
  have hnd2 : (s.selections.map (fun p => p.2.id)).Nodup := by
    rw [List.map_congr_left (fun p hp => hswf p hp)]
    exact hnd
  have hsel : ∀ p ∈ s.selections, assocFind p.2.id s.selections = some p.2 := by
    intro p hp
    rw [hswf p hp]
    exact assocFind_of_mem_nodup hnd hp
  have hkeyeq : ∀ p q, p ∈ s.selections → q ∈ s.selections → p.1 = q.1 → p = q := by
    intro p q hp hq hk
    have h1 := assocFind_of_mem_nodup hnd hp
    have h2 := assocFind_of_mem_nodup hnd hq
    rw [hk] at h1
    have h3 := h1.symm.trans h2
    obtain ⟨a, b⟩ := p
    obtain ⟨c, d⟩ := q
    simp only at hk h3
    rw [hk, Option.some.inj h3]
  have hfilt : s.selections.filter (fun q => decide (q.1 ∉ ((s.selections.filter (fun p => !(val.contains p.2.id))).map (fun p => p.2.id))))
      = s.selections.filter (fun q => val.contains q.2.id) := by
    apply List.filter_congr
    intro q hq
    by_cases hv : val.contains q.2.id = true
    · rw [hv, decide_eq_true_eq]
      intro hmem
      rcases List.mem_map.mp hmem with ⟨p, hpf, hpid⟩
      have hpl := List.mem_of_mem_filter hpf
      have hpv := List.of_mem_filter hpf
      have hpq : p = q := hkeyeq p q hpl hq ((hswf p hpl).symm.trans hpid)
      rw [hpq, hv] at hpv
      cases hpv
    · simp only [Bool.not_eq_true] at hv
      rw [hv]
      simp only [decide_eq_false_iff_not, not_not]
      refine List.mem_map.mpr ⟨q, ?_, hswf q hq⟩
      refine List.mem_filter.mpr ⟨hq, ?_⟩
      rw [hv]
      rfl
  have hph1 := selectionsPhase1_spec m val s.selections s [] hsel hnd2
  rw [hfilt, List.nil_append] at hph1
  have hph2 := selectionsPhase2_spec m (dedupFirst val)
    ({ s with selections := s.selections.filter (fun q => val.contains q.2.id) })
    ((s.selections.filter (fun p => !(val.contains p.2.id))).map (fun p => TlEv.deselect p.2.id))
    (dedupFirst_nodup val) hiwf hms
  have hfull : selectionsPush m s val
      = selectionsPhase2 m (dedupFirst val)
          ({ s with selections := s.selections.filter (fun q => val.contains q.2.id) },
           (s.selections.filter (fun p => !(val.contains p.2.id))).map (fun p => TlEv.deselect p.2.id)) := by
    unfold selectionsPush
    rw [hph1]
  rw [hph2] at hfull
  have hs1 : (selectionsPush m s val).1.selections
      = s.selections.filter (fun q => val.contains q.2.id)
        ++ phase2Adds s.items (s.selections.filter (fun q => val.contains q.2.id)) (dedupFirst val) := by
    rw [hfull]
  have hs2 : (selectionsPush m s val).2
      = (s.selections.filter (fun p => !(val.contains p.2.id))).map (fun p => TlEv.deselect p.2.id)
        ++ (phase2Adds s.items (s.selections.filter (fun q => val.contains q.2.id)) (dedupFirst val)).map (fun q => TlEv.select q.1) := by
    rw [hfull]
  refine ⟨hs1, hs2, ?_⟩
  intro id
  rw [hs1]
  have hsurvkey : s.selections.filter (fun q => val.contains q.2.id)
      = s.selections.filter (fun q => val.contains q.1) := by
    apply List.filter_congr
    intro q hq
    rw [hswf q hq]
  have hsurvfind : assocFind id (s.selections.filter (fun q => val.contains q.2.id))
      = if val.contains id = true then assocFind id s.selections else none := by
    rw [hsurvkey]
    exact assocFind_filter_key (fun k => val.contains k) id s.selections
  have hdc : (dedupFirst val).contains id = val.contains id := by
    cases hvc : val.contains id with
    | false =>
      cases hdd : (dedupFirst val).contains id with
      | false => rfl
      | true =>
        have hm := (dedupFirst_mem id val).mp ((contains_iff_memS _ _).mp hdd)
        rw [(contains_iff_memS val id).mpr hm] at hvc
        cases hvc
    | true =>
      exact (contains_iff_memS _ _).mpr
        ((dedupFirst_mem id val).mpr ((contains_iff_memS _ _).mp hvc))
  have hadds := assocFind_phase2Adds_isSome s.items
    (s.selections.filter (fun q => val.contains q.2.id)) (dedupFirst val) id
  rw [assocFind_append]
  cases hv : val.contains id with
  | false =>
    rw [hsurvfind, if_neg (by rw [hv]; exact Bool.false_ne_true)]
    simp only [hadds, hdc, hv, Bool.false_and, Bool.and_false]
  | true =>
    cases hi : (assocFind id s.items).isSome with
    | false =>
      rcases hsf : assocFind id (s.selections.filter (fun q => val.contains q.2.id)) with _ | v
      · simp only [hsf, hadds, hdc, hv, hi, Bool.and_false, Bool.false_and,
          Bool.true_and, Option.isSome_none]
      · have hmem := assocFind_mem hsf
        have hmem2 := List.mem_of_mem_filter hmem
        have := hsub (id, v) hmem2
        rw [hi] at this
        cases this
    | true =>
      rcases hsf : assocFind id (s.selections.filter (fun q => val.contains q.2.id)) with _ | v
      · simp only [hsf, hadds, hdc, hv, hi, Bool.true_and, Bool.and_true, Option.isSome_none]
        simp
      · rw [hsf]
        simp [hi, hv]

/-- Witness for the amended claim C4: pushing B, C, D onto the multiselect state with
A and B selected (items A, B, C) satisfies every hypothesis, and the resulting
selection is the survivor B followed by the newly selected C. -/
theorem selectionsPush_delta_witness :
    (itemsWF sMS.items)
    ∧ (itemsWF sMS.selections)
    ∧ ((sMS.selections.map Prod.fst).Nodup)
    ∧ (∀ p ∈ sMS.selections, (assocFind p.1 sMS.items).isSome = true)
    ∧ ((sMS.items.all (fun p => match assocFind p.2.spatialGroup mMS.sgs with
        | some sg => sg.superGroup.isNone || sg.multiselect
        | none => true)) = true)
    ∧ (selectionsPush mMS sMS ["B", "C", "D"]).1.selections
        = sMS.selections.filter (fun q => ["B", "C", "D"].contains q.2.id)
          ++ phase2Adds sMS.items
              (sMS.selections.filter (fun q => ["B", "C", "D"].contains q.2.id))
              (dedupFirst ["B", "C", "D"]) :=
  ⟨by decide, by decide, by decide, by decide, by decide,
    (selectionsPush_delta mMS sMS ["B", "C", "D"] (by decide) (by decide) (by decide)
      (by decide) (by decide)).1⟩

end cirspecte
